import Mathlib

/-!
# Verification of the content-generation pipeline

Shallow embedding of the core generation pipeline of the `jenosize-ai-content`
backend (`backend/app/services/content_generator.py`,
`backend/app/services/langchain_service.py`,
`backend/app/services/qdrant_service.py`, `backend/app/core/constants.py`,
`backend/app/models/article.py`) together with theorems settling the frozen
claims about it.

Strings are modelled at the level of `List Char`; Python `str` indexes by code
point, which coincides with `String.data` in Lean.  Network calls (embedding
generation, vector search, model generation, metadata extraction) are modelled
as explicit outcome parameters of type `Except`, mirroring "the call either
returns a value or raises".
-/

namespace Jenosize

/-- Python's whitespace test for `str.strip` / `str.split` / the regex class
`\s` (ASCII core: space, tab, newline, carriage return, vertical tab, form
feed).  The inputs manipulated by the pipeline are ASCII-covered here. -/
def isPySpace (c : Char) : Bool :=
  c == ' ' || c == '\t' || c == '\n' || c == '\r' || c == '\x0b' || c == '\x0c'

/-- Python `str.strip()` on a character list: drop whitespace at both ends. -/
def pyStripL (cs : List Char) : List Char :=
  ((cs.dropWhile isPySpace).reverse.dropWhile isPySpace).reverse

/-- Python `str.strip()`. -/
def pyStrip (s : String) : String := ⟨pyStripL s.data⟩

/-- Python `content.split('\n')` (keeps empty pieces). -/
def splitLinesAux : List Char → List Char → List (List Char)
  | [], acc => [acc.reverse]
  | '\n' :: cs, acc => acc.reverse :: splitLinesAux cs []
  | c :: cs, acc => splitLinesAux cs (c :: acc)

/-- Python `content.split('\n')`. -/
def splitLines (cs : List Char) : List (List Char) := splitLinesAux cs []

/-- Token counter for Python's bare `str.split()` (whitespace-delimited words,
leading/trailing whitespace ignored).  The Bool flag records whether the scan
is currently inside a word. -/
def wordCountAux : List Char → Bool → Nat
  | [], _ => 0
  | c :: cs, inWord =>
    if isPySpace c then wordCountAux cs false
    else (if inWord then 0 else 1) + wordCountAux cs true

/-- `len(text.split())`: the whitespace-delimited word count used by the
validator and the metadata extractor. -/
def wordCount (s : String) : Nat := wordCountAux s.data false

/-- Python `round(n / d)` for natural `n`, positive `d`: float division
followed by round-half-to-even.  For the word counts and divisor 200 that the
code uses, the float quotient is exact at every half-integer, so exact
rational rounding with ties-to-even is the faithful model. -/
def pyRoundHalfEven (n d : Nat) : Nat :=
  let q := n / d
  let r := n % d
  if 2 * r < d then q
  else if d < 2 * r then q + 1
  else if q % 2 = 0 then q else q + 1

/-! ## Constants (`backend/app/core/constants.py`, `backend/app/core/config.py`) -/

def WORDS_PER_MINUTE : Nat := 200

def MIN_READING_TIME_MINUTES : Nat := 1

def META_DESCRIPTION_MAX_LENGTH : Nat := 160

def META_DESCRIPTION_TRUNCATE_LENGTH : Nat := 157

def META_DESCRIPTION_FALLBACK_LENGTH : Nat := 150

def MIN_HEADING_COUNT : Nat := 3

def PLACEHOLDER_KEYWORDS : List String := ["[Insert", "[Add", "[TODO", "lorem ipsum"]

def QDRANT_MAX_RETRIES : Nat := 5

def QDRANT_INITIAL_RETRY_DELAY : Nat := 2

/-- `settings.min_article_length` default (config.py). -/
def settings_min_article_length : Nat := 800

/-- `settings.max_keywords` default (config.py). -/
def settings_max_keywords : Nat := 10

/-- `settings.llm_model` default (config.py). -/
def settings_llm_model : String := "claude-sonnet-4-5-20250929"

/-! ## The H2 regex `^##\s+(.+)$` under `re.MULTILINE`

`re.split(H2_PATTERN, content, flags=re.MULTILINE)` scans left to right for
matches anchored at line starts.  A match consumes `##`, a maximal-possible
run of whitespace (`\s+`, greedy, which may cross line boundaries because
`\s` includes `\n`), then `(.+)` greedily takes at least one non-newline
character up to the next newline or the end of the string, where `$` holds.
Greedy backtracking means: `\s+` first takes the full whitespace run; if no
character is left for `(.+)` (only possible when the string ends inside the
run), `\s+` gives characters back one at a time until the next character is a
non-newline (whitespace) character. -/

/-- Backtracking completion when the string ends inside the whitespace run:
`rs` is the run minus its first character (the `\s+` must keep at least one).
The capture becomes the last non-newline character of `rs` and the remainder
is the trailing newlines after it; `none` when `rs` is all newlines. -/
def btCapRun (rs : List Char) : Option (List Char × List Char) :=
  match rs.reverse.dropWhile (fun c => c == '\n') with
  | [] => none
  | c :: _ => some ([c], List.replicate (rs.reverse.takeWhile (fun c => c == '\n')).length '\n')

/-- Attempt to match `##\s+(.+)$` at the head of `cs` (the caller guarantees a
line start).  Returns the captured group and the unconsumed remainder. -/
def matchH2 (cs : List Char) : Option (List Char × List Char) :=
  match cs with
  | '#' :: '#' :: rest =>
    let run := rest.takeWhile isPySpace
    let rem := rest.dropWhile isPySpace
    if run.isEmpty then none
    else
      match rem with
      | [] => btCapRun (run.drop 1)
      | _ :: _ => some (rem.takeWhile (fun c => !(c == '\n')), rem.dropWhile (fun c => !(c == '\n')))
  | _ => none

/-- One fuel-indexed step of the `re.split` scan.  `bol` is true exactly at
line starts (position 0 or right after a newline), where `^` can match.
Returns the leading gap and the list of (capture, following gap) pairs.
Fuel at least the length of the list makes the fuel irrelevant. -/
def scanH2Aux : Nat → List Char → Bool → List Char × List (List Char × List Char)
  | 0, cs, _ => (cs, [])
  | _ + 1, [], _ => ([], [])
  | fuel + 1, c :: cs, true =>
    match matchH2 (c :: cs) with
    | some (cap, rest) =>
      let r := scanH2Aux fuel rest false
      ([], (cap, r.1) :: r.2)
    | none =>
      let r := scanH2Aux fuel cs (c == '\n')
      (c :: r.1, r.2)
  | fuel + 1, c :: cs, false =>
    let r := scanH2Aux fuel cs (c == '\n')
    (c :: r.1, r.2)

/-- The `re.split` scan for `^##\s+(.+)$` with `re.MULTILINE`. -/
def scanH2 (cs : List Char) (bol : Bool) : List Char × List (List Char × List Char) :=
  scanH2Aux cs.length cs bol

/-! ## Section segmentation (`content_generator._extract_sections`) -/

/-- A titled article section (`{"title": ..., "content": ...}` in the source). -/
structure Section where
  title : String
  content : String
deriving DecidableEq, Repr

/-- The loop `for i in range(1, len(parts), 2): if i + 1 < len(parts): ...`
over the parts list: consecutive (title, content) pairs at (odd, even)
indices, dropping a trailing lone element. -/
def pairUp : List String → List (String × String)
  | t :: g :: rest => (t, g) :: pairUp rest
  | _ => []

/-- `re.split(H2_PATTERN, content, flags=re.MULTILINE)`: the text before the
first match, then alternately each captured heading text and the text up to
the next match.  (With a single capture group the parts list always has odd
length: a gap follows every capture, possibly empty.) -/
def reSplitH2 (content : String) : List String :=
  let r := scanH2 content.data true
  ⟨r.1⟩ :: (r.2.map (fun p => [(⟨p.1⟩ : String), (⟨p.2⟩ : String)])).flatten

/-- `_extract_sections` (content_generator.py lines 299-328): split at H2
headings, pair titles with bodies, `str.strip()` both, and return `None`
(here `none`) when no section was found. -/
def extract_sections (content : String) : Option (List Section) :=
  let parts := reSplitH2 content
  let sections :=
    if 1 < parts.length then
      (pairUp parts.tail).map (fun p => Section.mk (pyStrip p.1) (pyStrip p.2))
    else []
  if sections.isEmpty then none else some sections

/-! ## Structure of the scan -/

/-- A position carries the H2 "marker" when a match could start there: `##`
followed by a whitespace character (the grammar `^##\s` of the pattern). -/
def isH2MarkerHead (l : List Char) : Bool :=
  match l with
  | a :: b :: d :: _ => a == '#' && b == '#' && isPySpace d
  | _ => false

/-- No line start of `cs` (with `bol` the line-start status of its first
character) carries the H2 marker. -/
def noH2MarkerAux : List Char → Bool → Bool
  | [], _ => true
  | c :: cs, bol => !(bol && isH2MarkerHead (c :: cs)) && noH2MarkerAux cs (c == '\n')

/-- Every section list produced by `extract_sections` has `str.strip`-idempotent
titles and bodies (i.e. both fields are already trimmed). -/
def sectionsTrimmed (o : Option (List Section)) : Bool :=
  match o with
  | none => true
  | some L => L.all (fun sec =>
      (pyStrip sec.title == sec.title) && (pyStrip sec.content == sec.content))

/-! ## Claim C10 -/

/-- Number of sections reported by `_extract_sections` (0 for `None`). -/
def sectionCount (content : String) : Nat :=
  match extract_sections content with
  | none => 0
  | some L => L.length

/-- Number of regex matches of `^##\s+(.+)$` in the multiline scan. -/
def h2MatchCount (content : String) : Nat := (scanH2 content.data true).2.length

/-- Number of lines that begin with the level-2 heading marker `##` followed
by a whitespace character. -/
def h2HeadingLineCount (content : String) : Nat :=
  ((splitLines content.data).filter isH2MarkerHead).length

/-! ## Claim C6 -/

/-- The reconstruction named by the claim: the concatenation of
`"## " + title + "\n" + body` over the sections. -/
def reconstructClaim (L : List Section) : String :=
  L.foldr (fun sec acc => "## " ++ sec.title ++ "\n" ++ sec.content ++ acc) ""

/-- The newline-terminated reconstruction: each section contributes
`"## " + title + "\n" + body + "\n"`. -/
def reconstructNL (L : List Section) : String :=
  L.foldr (fun sec acc => "## " ++ sec.title ++ "\n" ++ sec.content ++ "\n" ++ acc) ""

/-- Well-formedness of a section for re-segmentation: title and body trimmed,
title nonempty and single-line, and no line of the body (in its gap context)
starts with the `##` marker. -/
def wfSection (sec : Section) : Prop :=
  pyStrip sec.title = sec.title ∧ sec.title ≠ "" ∧ ('\n' ∉ sec.title.data) ∧
  pyStrip sec.content = sec.content ∧
  noH2MarkerAux (sec.content.data ++ ['\n']) true = true

instance (sec : Section) : Decidable (wfSection sec) := by
  unfold wfSection
  infer_instance

/-! ## Reading time (`langchain_service.calculate_reading_time`) and claim C7 -/

/-- `max(MIN_READING_TIME_MINUTES, round(word_count / WORDS_PER_MINUTE))`.
Python's `round` on the float quotient rounds half to even; for word counts
the quotient is exact at every half-integer, so `pyRoundHalfEven` is the
faithful model. -/
def calculate_reading_time (text : String) : Nat :=
  max MIN_READING_TIME_MINUTES (pyRoundHalfEven (wordCount text) WORDS_PER_MINUTE)

/-- A text of `n` whitespace-delimited words. -/
def mkWords : Nat → List Char
  | 0 => []
  | n + 1 => 'w' :: ' ' :: mkWords n

/-! ## Title extraction (`langchain_service.extract_title_from_content`) -/

/-- First line starting with `'# '`, with the marker removed and the rest
stripped; `"Untitled Article"` when no such line exists. -/
def extract_title_from_content (content : String) : String :=
  match (splitLines content.data).find? (fun l => l.take 2 == ['#', ' ']) with
  | some l => pyStrip ⟨l.drop 2⟩
  | none => "Untitled Article"

/-! ## Content validation (`content_generator._validate_article_content`) -/

/-- Can the H1 pattern `#\s+.+$` complete at the head of `cs`?  A match needs
`#`, a nonempty whitespace run, and at least one non-newline character
reachable for `(.+)` (either right after the run, or inside the run via
backtracking of `\s+`). -/
def h1MatchAt (cs : List Char) : Bool :=
  match cs with
  | '#' :: rest =>
    let run := rest.takeWhile isPySpace
    let rem := rest.dropWhile isPySpace
    !run.isEmpty && (!rem.isEmpty || (run.drop 1).any (fun c => !(c == '\n')))
  | _ => false

/-- `re.search(pattern, content, re.MULTILINE)`: a match exists at some line
start. -/
def existsLineStartMatch (p : List Char → Bool) : List Char → Bool → Bool
  | [], _ => false
  | c :: cs, bol => (bol && p (c :: cs)) || existsLineStartMatch p cs (c == '\n')

/-- `re.search(H1_PATTERN, content, re.MULTILINE)` finds a match. -/
def h1Found (content : String) : Bool :=
  existsLineStartMatch h1MatchAt content.data true

/-- Tail `\s+(.+)$` of the H2/H3 pattern at `rest`; returns the unconsumed
remainder on success. -/
def matchHashTail (rest : List Char) : Option (List Char) :=
  let run := rest.takeWhile isPySpace
  let rem := rest.dropWhile isPySpace
  if run.isEmpty then none
  else
    match rem with
    | [] => (btCapRun (run.drop 1)).map (fun p => p.2)
    | _ :: _ => some (rem.dropWhile (fun c => !(c == '\n')))

/-- Attempt to match `#{2,3}\s+.+$` at the head of `cs` (greedy `{2,3}`:
three hashes are tried before two). -/
def matchH23 (cs : List Char) : Option (List Char) :=
  match cs with
  | '#' :: '#' :: rest =>
    match rest with
    | '#' :: rest2 => (matchHashTail rest2).orElse (fun _ => matchHashTail rest)
    | _ => matchHashTail rest
  | _ => none

/-- `len(re.findall(H2_H3_PATTERN, content, re.MULTILINE))`: count of
non-overlapping matches in the multiline scan. -/
def countH23Aux : Nat → List Char → Bool → Nat
  | 0, _, _ => 0
  | _ + 1, [], _ => 0
  | fuel + 1, c :: cs, true =>
    match matchH23 (c :: cs) with
    | some rest => 1 + countH23Aux fuel rest false
    | none => countH23Aux fuel cs (c == '\n')
  | fuel + 1, c :: cs, false => countH23Aux fuel cs (c == '\n')

def countH23 (content : String) : Nat :=
  countH23Aux content.data.length content.data true

/-- Python `str.lower()` (character-wise; the inputs here are ASCII). -/
def pyLower (s : String) : String := ⟨s.data.map Char.toLower⟩

/-- Python `pat in s` substring test. -/
def strContainsSub (s pat : String) : Bool :=
  s.data.tails.any (fun t => pat.data.isPrefixOf t)

/-- The request model (`models/article.py`, `ArticleGenerationRequest`).
Enum fields are modelled by their `.value` strings; `keywords` is the list
the code reads (`request.keywords or []` makes `None` equivalent to `[]`). -/
structure ArticleGenerationRequest where
  topic : String
  industry : String
  audience : String
  keywords : List String
  target_length : Nat
  tone : String
  include_examples : Bool
  include_statistics : Bool
  generate_seo_metadata : Bool
  use_rag : Bool
deriving DecidableEq, Repr

structure ValidationResult where
  valid : Bool
  issues : List String
  word_count : Nat
deriving DecidableEq, Repr

set_option linter.unusedVariables false in
/-- `_validate_article_content` (content_generator.py lines 185-233): the
four checks append their issues in source order; `valid` holds iff no issue
was recorded.  The request parameter is accepted but unused, as in the
source. -/
def validate_article_content (content : String) (req : ArticleGenerationRequest) :
    ValidationResult :=
  let word_count := wordCount content
  let issues :=
    (if word_count < settings_min_article_length then
      ["Article too short: " ++ toString word_count ++ " words (minimum: " ++
        toString settings_min_article_length ++ ")"]
     else []) ++
    (if !h1Found content then ["No H1 title found"] else []) ++
    ((PLACEHOLDER_KEYWORDS.filter
        (fun p => strContainsSub (pyLower content) (pyLower p))).map
      (fun p => "Placeholder text detected: " ++ p)) ++
    (if countH23 content < MIN_HEADING_COUNT then
      ["Article may lack proper structure (few headings)"] else [])
  { valid := issues.isEmpty, issues := issues, word_count := word_count }

/-- A fixed request used to instantiate the claims at concrete inputs. -/
def sampleRequest : ArticleGenerationRequest :=
  { topic := "Future of Remote Work", industry := "general",
    audience := "professionals", keywords := [], target_length := 2000,
    tone := "professional", include_examples := true, include_statistics := true,
    generate_seo_metadata := true, use_rag := true }

/-! ## Metadata extraction (`langchain_service.extract_metadata`,
`content_generator._extract_article_metadata`) -/

/-- A JSON value as produced by `json.loads`: `extract_metadata` returns
whatever `json.loads` parsed on its success path — a dict, but equally a
list, a string, a number, a boolean or `null`.  Numbers are modelled as
integers: the downstream code only ever tests their truthiness and their
(non-existent) `len`, for which the fractional part is irrelevant. -/
inductive Json where
  | null : Json
  | bool (b : Bool) : Json
  | num (n : Int) : Json
  | str (s : String) : Json
  | arr (elems : List Json) : Json
  | obj (fields : List (String × Json)) : Json

/-- Is the value a dict?  `extracted_metadata.get(...)` raises
`AttributeError` on everything else. -/
def jsonIsObj : Json → Bool
  | Json.obj _ => true
  | _ => false

/-- `dict.get(key, default)`, total: callers first establish `jsonIsObj`
(the `AttributeError` on a non-dict is raised at the call-site model).
`json.loads` collapses duplicate keys, so payload objects are treated as
having distinct keys and the first binding is taken. -/
def jsonGetD (j : Json) (key : String) (default : Json) : Json :=
  match j with
  | Json.obj fields =>
    match fields.lookup key with
    | some v => v
    | none => default
  | _ => default

/-- Python truthiness of a JSON value (`if not meta_description`). -/
def jsonTruthy : Json → Bool
  | Json.null => false
  | Json.bool b => b
  | Json.num n => !(n == 0)
  | Json.str s => !(s == "")
  | Json.arr l => !l.isEmpty
  | Json.obj f => !f.isEmpty

/-- Unhashable Python values among JSON values: lists and dicts.  `set(...)`
raises `TypeError` on them. -/
def jsonUnhashable : Json → Bool
  | Json.arr _ => true
  | Json.obj _ => true
  | _ => false

/-- Is the value a Python `str`? -/
def isJsonStr : Json → Bool
  | Json.str _ => true
  | _ => false

/-- The string elements of a list of JSON values, in order. -/
def jsonStrs : List Json → List String
  | [] => []
  | Json.str s :: xs => s :: jsonStrs xs
  | _ :: xs => jsonStrs xs

/-- Pydantic validation of a `List[str]` field: succeeds exactly when every
element is a string (pydantic does not coerce numbers or booleans to `str`). -/
def jsonStrListOf : List Json → Option (List String)
  | [] => some []
  | Json.str s :: xs =>
    match jsonStrListOf xs with
    | some l => some (s :: l)
    | none => none
  | _ :: _ => none

/-- Pydantic validation of an `Optional[str]` field. -/
def jsonOptStr : Json → Option (Option String)
  | Json.null => some none
  | Json.str s => some (some s)
  | _ => none

/-- Python `len()` on a JSON value: defined for `str`, `list` and `dict`,
a `TypeError` on numbers, booleans and `None`. -/
def jsonLen : Json → Except String Nat
  | Json.str s => Except.ok s.data.length
  | Json.arr l => Except.ok l.length
  | Json.obj f => Except.ok f.length
  | Json.null => Except.error "TypeError: object of type NoneType has no len"
  | Json.bool _ => Except.error "TypeError: object of type bool has no len"
  | Json.num _ => Except.error "TypeError: object of type int or float has no len"

mutual
/-- Structural equality of JSON values, used to model `set()` deduplication.
Only hashable scalars ever reach the dedup (unhashable elements raise
first), and among those only all-string lists survive pydantic validation,
so Python's cross-type numeric equalities (`1 == True`) need not be
modelled: payloads exercising them fail validation either way. -/
def jsonBeq : Json → Json → Bool
  | Json.null, Json.null => true
  | Json.bool a, Json.bool b => a == b
  | Json.num a, Json.num b => a == b
  | Json.str a, Json.str b => a == b
  | Json.arr a, Json.arr b => jsonListBeq a b
  | Json.obj a, Json.obj b => jsonObjBeq a b
  | _, _ => false
def jsonListBeq : List Json → List Json → Bool
  | [], [] => true
  | x :: xs, y :: ys => jsonBeq x y && jsonListBeq xs ys
  | _, _ => false
def jsonObjBeq : List (String × Json) → List (String × Json) → Bool
  | [], [] => true
  | (k, v) :: xs, (l, w) :: ys => k == l && jsonBeq v w && jsonObjBeq xs ys
  | _, _ => false
end

/-- Membership up to `jsonBeq`. -/
def jsonMem (x : Json) : List Json → Bool
  | [] => false
  | y :: ys => jsonBeq x y || jsonMem x ys

/-- `list(set(...))` over JSON values (order unspecified in CPython; modelled
like `List.dedup`, keeping the last occurrence of each duplicate). -/
def jsonDedup : List Json → List Json
  | [] => []
  | x :: xs => if jsonMem x xs then jsonDedup xs else x :: jsonDedup xs

/-- The initial value `{"meta_description": None, "keywords": [],
"related_topics": []}` of `extracted_metadata`. -/
def defaultMetaJson : Json :=
  Json.obj [("meta_description", Json.null), ("keywords", Json.arr []),
    ("related_topics", Json.arr [])]

/-- `langchain_service.extract_metadata` (lines 303-340): the LLM call and
JSON parse are modelled by `llmOutcome`; on success the function returns the
parsed value AS IS — `json.loads` does not guarantee a dict, let alone one
with well-typed fields.  Any failure is caught INSIDE this function, which
then returns a dict with `article_content[:150] + "..."` as the default
meta description (note: no `#` stripping on this path). -/
def extract_metadata (article_content : String)
    (llmOutcome : Except String Json) : Json :=
  match llmOutcome with
  | Except.ok j => j
  | Except.error _ =>
    Json.obj [("meta_description",
        Json.str ((⟨article_content.data.take 150⟩ : String) ++ "...")),
      ("keywords", Json.arr []), ("related_topics", Json.arr [])]

/-- The fallback of `_extract_article_metadata` (content_generator.py line
277): `content[:META_DESCRIPTION_FALLBACK_LENGTH].replace("#", "").strip()
+ "..."`. -/
def fallback_meta_description (content : String) : String :=
  pyStrip ⟨(content.data.take META_DESCRIPTION_FALLBACK_LENGTH).filter
    (fun c => !(c == '#'))⟩ ++ "..."

/-- The `extracted_metadata` value inside `_extract_article_metadata`: the
sub-call result when `generate_seo_metadata` is on, else the untouched
default dict. -/
def extractedPayload (content : String) (req : ArticleGenerationRequest)
    (llmOutcome : Except String Json) : Json :=
  if req.generate_seo_metadata then extract_metadata content llmOutcome
  else defaultMetaJson

/-- The meta-description string along the non-raising paths of lines
274-277: the extracted value when it is a non-empty string (Python
truthiness), the `#`-stripped fallback when it is falsy.  (A truthy
non-string value raises before any string candidate exists; those paths
never produce an `ArticleMetadata`.) -/
def metaCandidateOfPayload (content : String) (mdJson : Json) : String :=
  match mdJson with
  | Json.str d => if d = "" then fallback_meta_description content else d
  | _ => fallback_meta_description content

/-- `metaCandidateOfPayload` at the payload the orchestrator actually uses. -/
def metaDescriptionCandidate (content : String) (req : ArticleGenerationRequest)
    (llmOutcome : Except String Json) : String :=
  metaCandidateOfPayload content
    (jsonGetD (extractedPayload content req llmOutcome) "meta_description" Json.null)

/-- The length cap of lines 279-281 on a string: hard truncation to
`META_DESCRIPTION_TRUNCATE_LENGTH` characters plus an ellipsis whenever the
value exceeds `META_DESCRIPTION_MAX_LENGTH`. -/
def truncateStr (d : String) : String :=
  if META_DESCRIPTION_MAX_LENGTH < d.data.length then
    (⟨d.data.take META_DESCRIPTION_TRUNCATE_LENGTH⟩ : String) ++ "..."
  else d

/-- The final meta description along the non-raising paths. -/
def finalMetaDescription (content : String) (req : ArticleGenerationRequest)
    (llmOutcome : Except String Json) : String :=
  truncateStr (metaDescriptionCandidate content req llmOutcome)

/-- Lines 279-281 on the (possibly replaced) `meta_description` value:
`len(meta_description)` — a `TypeError` on a truthy number or boolean — then
the `meta_description[:157] + "..."` cap — slicing a dict or concatenating a
list with a string also raises.  A truthy list or dict of length at most 160
passes through unchanged (and is later rejected by pydantic). -/
def metaLenStep (md : Json) : Except String Json :=
  match jsonLen md with
  | Except.error e => Except.error e
  | Except.ok n =>
    if META_DESCRIPTION_MAX_LENGTH < n then
      match md with
      | Json.str s =>
        Except.ok (Json.str
          ((⟨s.data.take META_DESCRIPTION_TRUNCATE_LENGTH⟩ : String) ++ "..."))
      | _ => Except.error "TypeError: unsupported slice or concatenation"
    else Except.ok md

/-- Lines 274-281 on the raw `meta_description` value: truthiness test,
fallback on falsy values, then the length cap. -/
def metaStep (content : String) (mdJson : Json) : Except String Json :=
  metaLenStep (if jsonTruthy mdJson then mdJson
    else Json.str (fallback_meta_description content))

/-- `models/article.py`, `ArticleMetadata` (the `generated_at` timestamp is
not modelled). -/
structure ArticleMetadata where
  title : String
  meta_description : Option String
  keywords : List String
  reading_time_minutes : Nat
  word_count : Nat
  industry : String
  audience : String
  tone : String
  model_used : String
  rag_sources_count : Nat
deriving DecidableEq, Repr

/-- Is a proposed meta description longer than the pydantic
`max_length=160` bound? -/
def metaDescriptionTooLong (o : Option String) : Bool :=
  match o with
  | some d => META_DESCRIPTION_MAX_LENGTH < d.data.length
  | none => false

/-- The pydantic-validated constructor of `ArticleMetadata`: constructing the
model raises a `ValidationError` when `meta_description` exceeds 160
characters or `reading_time_minutes` is below 1 (the other field constraints
are satisfied by the types used here). -/
def mkArticleMetadata (title : String) (meta_description : Option String)
    (keywords : List String) (reading_time_minutes word_count : Nat)
    (industry audience tone model_used : String) (rag_sources_count : Nat) :
    Except String ArticleMetadata :=
  if metaDescriptionTooLong meta_description then
    Except.error "1 validation error for ArticleMetadata meta_description"
  else if reading_time_minutes < MIN_READING_TIME_MINUTES then
    Except.error "1 validation error for ArticleMetadata reading_time_minutes"
  else
    Except.ok
      { title := title, meta_description := meta_description, keywords := keywords,
        reading_time_minutes := reading_time_minutes, word_count := word_count,
        industry := industry, audience := audience, tone := tone,
        model_used := model_used, rag_sources_count := rag_sources_count }

/-- `_extract_article_metadata` (content_generator.py lines 235-297) from
the `extracted_metadata` value on.  The inner `try/except` around
`extract_metadata` never fires (that function catches its own failures),
but the accesses BELOW it are bare: `extracted_metadata.get("keywords", [])`
(line 269) raises `AttributeError` on a non-dict payload;
`(request.keywords or []) + ...` raises `TypeError` when the `keywords`
value is not a list; `set(...)` raises on unhashable elements;
`len(meta_description)` and the slice-plus-ellipsis (lines 280-281) raise on
truthy non-string values; and the pydantic constructor rejects ill-typed
`meta_description` or `keywords` fields.  All of these propagate to the
orchestrator's `except`. -/
def extractStage (content : String) (req : ArticleGenerationRequest)
    (extracted : Json) : Except String ArticleMetadata :=
  if jsonIsObj extracted then
    match jsonGetD extracted "keywords" (Json.arr []) with
    | Json.arr kwElems =>
      if kwElems.any jsonUnhashable then
        Except.error "TypeError: unhashable type in set"
      else
        match metaStep content (jsonGetD extracted "meta_description" Json.null) with
        | Except.error e => Except.error e
        | Except.ok md =>
          match jsonOptStr md with
          | none => Except.error "1 validation error for ArticleMetadata meta_description"
          | some mdOpt =>
            match jsonStrListOf ((jsonDedup (req.keywords.map Json.str ++ kwElems)).take
                settings_max_keywords) with
            | none => Except.error "1 validation error for ArticleMetadata keywords"
            | some all_keywords =>
              mkArticleMetadata (extract_title_from_content content) mdOpt all_keywords
                (calculate_reading_time content) (wordCount content)
                req.industry req.audience req.tone settings_llm_model 0
    | _ => Except.error "TypeError: can only concatenate list to list"
  else Except.error "AttributeError: get on a non-dict JSON value"

/-- `_extract_article_metadata` without the `rag_sources_count` argument
(which the source sets at construction; no validation depends on it, so it
is threaded in by `extract_article_metadata` afterwards). -/
def extract_article_metadata_core (content : String) (req : ArticleGenerationRequest)
    (llmOutcome : Except String Json) : Except String ArticleMetadata :=
  extractStage content req (extractedPayload content req llmOutcome)

/-- `_extract_article_metadata` (content_generator.py lines 235-297). -/
def extract_article_metadata (content : String) (req : ArticleGenerationRequest)
    (rag_sources_count : Nat) (llmOutcome : Except String Json) :
    Except String ArticleMetadata :=
  match extract_article_metadata_core content req llmOutcome with
  | Except.error e => Except.error e
  | Except.ok m => Except.ok { m with rag_sources_count := rag_sources_count }

/-- A `meta_description` value that cannot make lines 274-281 or the
pydantic constructor raise: a string or `null`. -/
def mdShapeOk : Json → Bool
  | Json.null => true
  | Json.str _ => true
  | _ => false

/-- A payload shape on which `_extract_article_metadata` provably cannot
raise: a dict whose `keywords` value (if any) is a list of strings and whose
`meta_description` value (if any) is a string or `null`. -/
def jsonWellShaped (j : Json) : Bool :=
  jsonIsObj j &&
  (match jsonGetD j "keywords" (Json.arr []) with
   | Json.arr l => l.all isJsonStr
   | _ => false) &&
  mdShapeOk (jsonGetD j "meta_description" Json.null)

/-- The side condition under which the metadata step is harmless: SEO
metadata generation is off, or the LLM sub-call fails (its failure is
caught inside `extract_metadata`), or the parsed payload is well shaped. -/
def seoPayloadOk (req : ArticleGenerationRequest) (llm : Except String Json) : Bool :=
  if req.generate_seo_metadata then
    match llm with
    | Except.error _ => true
    | Except.ok j => jsonWellShaped j
  else true

/-- The elements of the payload's `keywords` list (empty when the field is
absent or not a list). -/
def kwElemsOf (j : Json) : List Json :=
  match jsonGetD j "keywords" (Json.arr []) with
  | Json.arr l => l
  | _ => []

/-- The string keywords contributed by the payload along non-raising paths. -/
def payloadKeywords (content : String) (req : ArticleGenerationRequest)
    (llm : Except String Json) : List String :=
  jsonStrs (kwElemsOf (extractedPayload content req llm))

/-- The meta description carried by a metadata-extraction result. -/
def metaDescOf (r : Except String ArticleMetadata) : Option String :=
  match r with
  | Except.ok m => m.meta_description
  | Except.error _ => none

/-- A 170-character candidate meta description. -/
def longMeta : String := ⟨List.replicate 170 'a'⟩

/-! ## The pipeline orchestrator (`content_generator.generate_article`) -/

/-- A retrieved article as formatted by `qdrant_service.search_similar_articles`
(the per-field payload extraction has no bearing on the claims, which depend
only on the list and its length). -/
structure SimilarArticle where
  title : String
  content : String
  topic : String
  industry : String
deriving DecidableEq, Repr

deriving instance DecidableEq for Except

/-- Is the outcome of a call an exception? -/
def isError {α : Type} (r : Except String α) : Bool :=
  match r with
  | Except.error _ => true
  | Except.ok _ => false

/-- `qdrant_service.search_similar_articles` (lines 305-369): the network
search is modelled by its outcome; any exception is caught internally and
converted to the empty list. -/
def search_similar_articles (searchOutcome : Except String (List SimilarArticle)) :
    List SimilarArticle :=
  match searchOutcome with
  | Except.ok results => results
  | Except.error _ => []

/-- The outcomes of the pipeline's four effectful calls: embedding
generation (`generate_embedding`, which re-raises on failure), vector search,
model generation, and the metadata-extraction LLM sub-call (whose success
value is the raw `json.loads` result). -/
structure PipelineOutcomes where
  embedding : Except String Unit
  search : Except String (List SimilarArticle)
  generation : Except String String
  metadataLLM : Except String Json

/-- `content_generator._retrieve_similar_articles` (lines 149-183): the
`try/except` catches an embedding failure and returns `[]`; the search call
already degrades to `[]` internally. -/
def retrieve_similar_articles (env : PipelineOutcomes) : List SimilarArticle :=
  match env.embedding with
  | Except.error _ => []
  | Except.ok _ => search_similar_articles env.search

/-- `models/article.py`, `GeneratedArticle`. -/
structure GeneratedArticle where
  content : String
  metadata : ArticleMetadata
  sections : Option (List Section)
  references : Option (List String)
  related_topics : Option (List String)
deriving DecidableEq, Repr

/-- The pydantic `min_length=100` bound on `GeneratedArticle.content`. -/
def GENERATED_ARTICLE_MIN_CONTENT_LENGTH : Nat := 100

/-- The pydantic-validated constructor of `GeneratedArticle`: constructing
the model raises a `ValidationError` when the content is shorter than 100
characters. -/
def mkGeneratedArticle (content : String) (metadata : ArticleMetadata)
    (sections : Option (List Section)) (related_topics : Option (List String)) :
    Except String GeneratedArticle :=
  if content.data.length < GENERATED_ARTICLE_MIN_CONTENT_LENGTH then
    Except.error "1 validation error for GeneratedArticle content"
  else
    Except.ok
      { content := content, metadata := metadata, sections := sections,
        references := none, related_topics := related_topics }

/-- `models/article.py`, `ArticleGenerationResponse` (the response timestamp
is not modelled; the elapsed time is threaded through as a parameter because
wall-clock measurement is outside the embedding). -/
structure ArticleGenerationResponse where
  success : Bool
  article : Option GeneratedArticle
  error : Option String
  generation_time_seconds : Nat
  request_id : Option String
deriving DecidableEq, Repr

/-- `content_generator.generate_article` (lines 52-147): optional RAG
retrieval, generation, advisory validation, metadata extraction, and article
assembly inside one `try`; any exception yields the failure envelope with
`"Failed to generate article: " + str(e)`. -/
def generate_article (req : ArticleGenerationRequest) (env : PipelineOutcomes)
    (request_id : Option String) (elapsed : Nat) : ArticleGenerationResponse :=
  let similar := if req.use_rag then retrieve_similar_articles env else []
  let rag_sources_count := similar.length
  match env.generation with
  | Except.error e =>
    { success := false, article := none,
      error := some ("Failed to generate article: " ++ e),
      generation_time_seconds := elapsed, request_id := request_id }
  | Except.ok article_content =>
    let _validation := validate_article_content article_content req
    match extract_article_metadata article_content req rag_sources_count env.metadataLLM with
    | Except.error e =>
      { success := false, article := none,
        error := some ("Failed to generate article: " ++ e),
        generation_time_seconds := elapsed, request_id := request_id }
    | Except.ok metadata =>
      match mkGeneratedArticle article_content metadata
          (extract_sections article_content)
          (if metadata.keywords.isEmpty then none
           else some (metadata.keywords.take 5)) with
      | Except.error e =>
        { success := false, article := none,
          error := some ("Failed to generate article: " ++ e),
          generation_time_seconds := elapsed, request_id := request_id }
      | Except.ok article =>
        { success := true, article := some article, error := none,
          generation_time_seconds := elapsed, request_id := request_id }

/-- The RAG source count recorded in a response's article metadata. -/
def ragSourcesOf (r : ArticleGenerationResponse) : Option Nat :=
  match r.article with
  | some a => some a.metadata.rag_sources_count
  | none => none

/-- Did the generation outcome succeed but with content shorter than the
100-character minimum that `GeneratedArticle` enforces? -/
def contentTooShort (g : Except String String) : Bool :=
  match g with
  | Except.ok c => c.data.length < GENERATED_ARTICLE_MIN_CONTENT_LENGTH
  | Except.error _ => false

/-! ## Claims C1 and C2 -/

/-- An environment whose embedding call fails while the generator succeeds
with a 4-character article. -/
def c1FailEnv : PipelineOutcomes :=
  { embedding := Except.error "connection refused", search := Except.ok [],
    generation := Except.ok "tiny", metadataLLM := Except.error "llm down" }

/-- A 120-character article body. -/
def longContent : String := ⟨List.replicate 120 'b'⟩

def c1OkEnv : PipelineOutcomes :=
  { embedding := Except.error "connection refused", search := Except.ok [],
    generation := Except.ok longContent, metadataLLM := Except.error "llm down" }

/-- An environment where every call succeeds but the generated article is
only 10 characters long (the metadata payload is a well-shaped dict). -/
def c2ShortEnv : PipelineOutcomes :=
  { embedding := Except.ok (), search := Except.ok [],
    generation := Except.ok "Too short.",
    metadataLLM := Except.ok (Json.obj [("meta_description", Json.str "desc"),
      ("keywords", Json.arr [Json.str "k"]), ("related_topics", Json.arr [])]) }

/-- Does the metadata step of the pipeline raise?  It can only do so after a
successful generation, and its outcome does not depend on the retrieval
results (`rag_sources_count` is attached after all checks). -/
def metadataStepFails (req : ArticleGenerationRequest) (g : Except String String)
    (llm : Except String Json) : Bool :=
  match g with
  | Except.ok c => isError (extract_article_metadata_core c req llm)
  | Except.error _ => false

/-- An environment where embedding, search and generation all succeed (120
characters of content), but the metadata sub-call parses to the JSON value
`null` — on which line 269 raises `AttributeError`. -/
def c2NullEnv : PipelineOutcomes :=
  { embedding := Except.ok (), search := Except.ok [],
    generation := Except.ok longContent, metadataLLM := Except.ok Json.null }

/-- A successfully parsed payload whose `meta_description` is JSON `null`. -/
def metaNullPayload : Json :=
  Json.obj [("meta_description", Json.null), ("keywords", Json.arr []),
    ("related_topics", Json.arr [])]

/-- A well-shaped payload carrying a 170-character meta description. -/
def c3Payload : Json := Json.obj [("meta_description", Json.str longMeta)]

/-- The metadata extracted from `"body text"` under `sampleRequest` and
`c3Payload`. -/
def c3Meta : ArticleMetadata :=
  { title := "Untitled Article",
    meta_description := some ((⟨longMeta.data.take 157⟩ : String) ++ "..."),
    keywords := [], reading_time_minutes := 1, word_count := 2,
    industry := "general", audience := "professionals", tone := "professional",
    model_used := settings_llm_model, rag_sources_count := 0 }

/-! ## Connection retry (`qdrant_service._verify_connection_with_retry`)
and claim C8 -/

/-- One run of `_verify_connection_with_retry` (qdrant_service.py lines
89-116), with the outcome of each `client.get_collections()` call injected
by attempt number.  Returns (sleep delays performed in order, number of
attempts made, final outcome).  The fuel argument bounds the loop; the
wrapper supplies `QDRANT_MAX_RETRIES`, which is exact because the loop runs
attempts `1..QDRANT_MAX_RETRIES`. -/
def verifyAux (outcome : Nat → Except String Unit) :
    Nat → Nat → Nat → List Nat × Nat × Except String Unit
  | attempt, delay, fuel + 1 =>
    match outcome attempt with
    | Except.ok _ => ([], 1, Except.ok ())
    | Except.error e =>
      if attempt < QDRANT_MAX_RETRIES then
        let r := verifyAux outcome (attempt + 1) (delay * 2) fuel
        (delay :: r.1, r.2.1 + 1, r.2.2)
      else ([], 1, Except.error e)
  | _, _, 0 => ([], 0, Except.ok ())

/-- `_verify_connection_with_retry` with initial delay `d`
(`QDRANT_INITIAL_RETRY_DELAY = 2` in the source). -/
def verify_connection_with_retry (d : Nat) (outcome : Nat → Except String Unit) :
    List Nat × Nat × Except String Unit :=
  verifyAux outcome 1 d QDRANT_MAX_RETRIES

/-- An environment where every connection attempt fails. -/
def allFailOutcome : Nat → Except String Unit :=
  fun i => Except.error ("attempt " ++ toString i ++ " failed")

/-! ## Theorems -/

theorem btCapRun_length {rs cap rest : List Char} (h : btCapRun rs = some (cap, rest)) :
    rest.length ≤ rs.length := by
  rw [btCapRun.eq_def] at h
  split at h
  · exact absurd h (by simp)
  · simp only [Option.some.injEq, Prod.mk.injEq] at h
    rw [← h.2, List.length_replicate]
    calc (rs.reverse.takeWhile (fun c => c == '\n')).length
        ≤ rs.reverse.length := (List.takeWhile_sublist _).length_le
      _ = rs.length := by simp

theorem matchH2_some_length {cs cap rest : List Char}
    (h : matchH2 cs = some (cap, rest)) : rest.length < cs.length := by
  rw [matchH2.eq_def] at h
  dsimp only at h
  split at h
  · rename_i l
    split at h
    · exact absurd h (by simp)
    · split at h
      · have h1 := btCapRun_length h
        have h2 : ((l.takeWhile isPySpace).drop 1).length = (l.takeWhile isPySpace).length - 1 := by
          simp
        have h3 : (l.takeWhile isPySpace).length ≤ l.length :=
          (List.takeWhile_sublist _).length_le
        simp only [List.length_cons]
        omega
      · simp only [Option.some.injEq, Prod.mk.injEq] at h
        have h1 : rest.length ≤ (l.dropWhile isPySpace).length := by
          rw [← h.2]
          exact (List.dropWhile_sublist _).length_le
        have h2 : (l.dropWhile isPySpace).length ≤ l.length :=
          (List.dropWhile_sublist _).length_le
        simp only [List.length_cons]
        omega
  · exact absurd h (by simp)

theorem scanH2Aux_fuel_irrel :
    ∀ (f g : Nat) (cs : List Char) (bol : Bool), cs.length ≤ f → cs.length ≤ g →
      scanH2Aux f cs bol = scanH2Aux g cs bol := by
  intro f
  induction f with
  | zero =>
    intro g cs bol hf _
    have : cs = [] := List.length_eq_zero.mp (Nat.le_zero.mp hf)
    subst this
    cases g <;> rfl
  | succ f ih =>
    intro g cs bol hf hg
    cases cs with
    | nil => cases g <;> rfl
    | cons c cs =>
      cases g with
      | zero => exact absurd hg (by simp)
      | succ g =>
        cases bol with
        | true =>
          simp only [scanH2Aux]
          cases hm : matchH2 (c :: cs) with
          | some p =>
            obtain ⟨cap, rest⟩ := p
            have hlt := matchH2_some_length hm
            simp only [List.length_cons] at hf hg hlt
            simp only [ih g rest false (by omega) (by omega)]
          | none =>
            simp only [List.length_cons] at hf hg
            simp only [ih g cs (c == '\n') (by omega) (by omega)]
        | false =>
          simp only [scanH2Aux]
          simp only [List.length_cons] at hf hg
          simp only [ih g cs (c == '\n') (by omega) (by omega)]

theorem scanH2_nil (bol : Bool) : scanH2 [] bol = ([], []) := rfl

theorem scanH2_cons_false (c : Char) (cs : List Char) :
    scanH2 (c :: cs) false =
      (c :: (scanH2 cs (c == '\n')).1, (scanH2 cs (c == '\n')).2) := by
  show scanH2Aux (cs.length + 1) (c :: cs) false = _
  simp only [scanH2Aux]
  rfl

theorem scanH2_cons_true_match {c : Char} {cs cap rest : List Char}
    (hm : matchH2 (c :: cs) = some (cap, rest)) :
    scanH2 (c :: cs) true =
      ([], (cap, (scanH2 rest false).1) :: (scanH2 rest false).2) := by
  have hlt := matchH2_some_length hm
  simp only [List.length_cons] at hlt
  show scanH2Aux (cs.length + 1) (c :: cs) true = _
  simp only [scanH2Aux, hm]
  simp only [scanH2Aux_fuel_irrel cs.length rest.length rest false (by omega) le_rfl]
  rfl

theorem scanH2_cons_true_nomatch {c : Char} {cs : List Char}
    (hm : matchH2 (c :: cs) = none) :
    scanH2 (c :: cs) true =
      (c :: (scanH2 cs (c == '\n')).1, (scanH2 cs (c == '\n')).2) := by
  show scanH2Aux (cs.length + 1) (c :: cs) true = _
  simp only [scanH2Aux, hm]
  rfl

example : extract_sections "## A\nx\n## B\ny" = some [⟨"A", "x"⟩, ⟨"B", "y"⟩] := by decide

example : extract_sections "## A\nx## B\ny" = some [⟨"A", "x## B\ny"⟩] := by decide

example : extract_sections "##  \n## B" = some [⟨"## B", ""⟩] := by decide

example : extract_sections "no headings here" = none := by decide

example : extract_sections "##  \n" = some [⟨"", ""⟩] := by decide

example : extract_sections "## A\nbody\n## End" = some [⟨"A", "body"⟩, ⟨"End", ""⟩] := by decide

example : extract_sections "## A\n## " = some [⟨"A", "##"⟩] := by decide

example : extract_sections "intro text\n## A\nbody" = some [⟨"A", "body"⟩] := by decide

theorem isH2MarkerHead_of_matchH2 {l : List Char} {p : List Char × List Char}
    (h : matchH2 l = some p) : isH2MarkerHead l = true := by
  rw [matchH2.eq_def] at h
  dsimp only at h
  split at h
  · rename_i rest
    split at h
    · exact absurd h (by simp)
    · rename_i hrun
      cases rest with
      | nil => simp [List.takeWhile] at hrun
      | cons d l' =>
        by_cases hd : isPySpace d
        · simp [isH2MarkerHead, hd]
        · simp [List.takeWhile_cons, hd] at hrun
  · exact absurd h (by simp)

theorem matchH2_eq_none {l : List Char} (h : isH2MarkerHead l = false) :
    matchH2 l = none := by
  cases hm : matchH2 l with
  | none => rfl
  | some p => rw [isH2MarkerHead_of_matchH2 hm] at h; exact absurd h (by simp)

theorem isH2MarkerHead_short₁ (c : Char) (h : ¬ c = '#') (l : List Char) :
    isH2MarkerHead (c :: l) = false := by
  cases l with
  | nil => rfl
  | cons b l' =>
    cases l' with
    | nil => rfl
    | cons d l'' => simp [isH2MarkerHead, h]

theorem isH2MarkerHead_short₂ (a c : Char) (h : ¬ c = '#') (l : List Char) :
    isH2MarkerHead (a :: c :: l) = false := by
  cases l with
  | nil => rfl
  | cons d l' => simp [isH2MarkerHead, h]

theorem isH2MarkerHead_take3 (a b d : Char) (l l' : List Char) :
    isH2MarkerHead (a :: b :: d :: l) = isH2MarkerHead (a :: b :: d :: l') := rfl

/-- A marker-free region contains no match: the scan swallows it whole as
one gap. -/
theorem scanH2_of_noMarker :
    ∀ (cs : List Char) (bol : Bool), noH2MarkerAux cs bol = true →
      scanH2 cs bol = (cs, []) := by
  intro cs
  induction cs with
  | nil => intro bol _; rfl
  | cons c cs ih =>
    intro bol h
    simp only [noH2MarkerAux, Bool.and_eq_true, Bool.not_eq_true'] at h
    obtain ⟨h1, h2⟩ := h
    cases bol with
    | false => rw [scanH2_cons_false, ih _ h2]
    | true =>
      have hmk : isH2MarkerHead (c :: cs) = false := by simpa using h1
      rw [scanH2_cons_true_nomatch (matchH2_eq_none hmk), ih _ h2]

/-- Prepending a marker-free, newline-terminated region to the input leaves
the match structure of the rest untouched: it only extends the leading gap.
This is what "the portion before the first heading is discarded" rests on. -/
theorem scanH2_append_of_noMarker :
    ∀ (g : List Char) (bol : Bool) (rest : List Char),
      noH2MarkerAux g bol = true →
      (g = [] → bol = true) →
      (g ≠ [] → g.getLast? = some '\n') →
      scanH2 (g ++ rest) bol = (g ++ (scanH2 rest true).1, (scanH2 rest true).2) := by
  intro g
  induction g with
  | nil =>
    intro bol rest _ hx _
    rw [hx rfl]
    simp
  | cons c g ih =>
    intro bol rest hnm hx hlast
    have hlast' := hlast (by simp)
    simp only [noH2MarkerAux, Bool.and_eq_true, Bool.not_eq_true'] at hnm
    obtain ⟨h1, h2⟩ := hnm
    have cond1 : g = [] → (c == '\n') = true := by
      intro hg
      subst hg
      simp only [List.getLast?_singleton, Option.some.injEq] at hlast'
      simp [hlast']
    have cond2 : g ≠ [] → g.getLast? = some '\n' := by
      intro hg
      cases g with
      | nil => exact absurd rfl hg
      | cons d g' => rw [← List.getLast?_cons_cons]; exact hlast'
    have hih := ih (c == '\n') rest h2 cond1 cond2
    cases bol with
    | false =>
      rw [List.cons_append, scanH2_cons_false, hih]
      simp
    | true =>
      have hnomatch : matchH2 (c :: (g ++ rest)) = none := by
        apply matchH2_eq_none
        cases g with
        | nil =>
          have hc : c = '\n' := by simpa using hlast'
          subst hc
          exact isH2MarkerHead_short₁ '\n' (by decide) rest
        | cons d g' =>
          cases g' with
          | nil =>
            have hd : d = '\n' := by simpa using hlast'
            subst hd
            exact isH2MarkerHead_short₂ c '\n' (by decide) rest
          | cons e g'' =>
            have hm3 : isH2MarkerHead (c :: d :: e :: (g'' ++ rest)) =
                isH2MarkerHead (c :: d :: e :: g'') := isH2MarkerHead_take3 c d e _ _
            rw [show (c :: (d :: e :: g'' ++ rest)) = c :: d :: e :: (g'' ++ rest) from rfl, hm3]
            simpa using h1
      rw [List.cons_append, scanH2_cons_true_nomatch hnomatch, hih]
      simp

/-! ## Properties of `pyStrip` -/

theorem dropWhile_idem (p : Char → Bool) (l : List Char) :
    (l.dropWhile p).dropWhile p = l.dropWhile p := by
  induction l with
  | nil => rfl
  | cons c l ih =>
    by_cases hc : p c
    · simp [List.dropWhile_cons, hc, ih]
    · simp [List.dropWhile_cons, hc]

theorem head_not_of_dropWhile_eq {p : Char → Bool} {b : Char} {l : List Char}
    (h : (b :: l).dropWhile p = b :: l) : p b = false := by
  by_cases hb : p b
  · exfalso
    rw [List.dropWhile_cons, if_pos hb] at h
    have h1 : (l.dropWhile p).length ≤ l.length := (List.dropWhile_sublist _).length_le
    have h2 : (l.dropWhile p).length = l.length + 1 := by rw [h]; simp
    omega
  · simpa using hb

theorem pyStripL_eq_self_iff (l : List Char) :
    pyStripL l = l ↔
      l.dropWhile isPySpace = l ∧ l.reverse.dropWhile isPySpace = l.reverse := by
  constructor
  · intro h
    have hA : (l.dropWhile isPySpace) <:+ l := List.dropWhile_suffix _
    have hB : ((l.dropWhile isPySpace).reverse.dropWhile isPySpace) <:+
        (l.dropWhile isPySpace).reverse := List.dropWhile_suffix _
    have hlenB : ((l.dropWhile isPySpace).reverse.dropWhile isPySpace).length = l.length := by
      have := congrArg List.length h
      simpa [pyStripL] using this
    have hlenA : (l.dropWhile isPySpace).length = l.length := by
      have h1 := hA.length_le
      have h2 := hB.length_le
      simp only [List.length_reverse] at h2
      omega
    have hAeq : l.dropWhile isPySpace = l := hA.eq_of_length hlenA
    refine ⟨hAeq, ?_⟩
    rw [hAeq] at hB hlenB
    exact hB.eq_of_length (by simpa using hlenB)
  · intro ⟨h1, h2⟩
    simp [pyStripL, h1, h2]

theorem pyStripL_idem (l : List Char) : pyStripL (pyStripL l) = pyStripL l := by
  rw [pyStripL_eq_self_iff]
  constructor
  · -- the head of the stripped list does not satisfy the predicate
    cases hres : pyStripL l with
    | nil => rfl
    | cons x xs =>
      apply List.dropWhile_cons_of_neg
      -- x :: xs is a prefix of `l.dropWhile isPySpace`, whose head fails the predicate
      have hB : ((l.dropWhile isPySpace).reverse.dropWhile isPySpace) <:+
          (l.dropWhile isPySpace).reverse := List.dropWhile_suffix _
      have hpre : pyStripL l <+: l.dropWhile isPySpace := by
        have h := List.reverse_prefix.mpr hB
        simp only [List.reverse_reverse] at h
        exact h
      rw [hres] at hpre
      obtain ⟨t, ht⟩ := hpre
      have : (l.dropWhile isPySpace).dropWhile isPySpace = l.dropWhile isPySpace :=
        dropWhile_idem _ _
      rw [← ht] at this
      have hx : isPySpace x = false := head_not_of_dropWhile_eq this
      simp [hx]
  · -- the reverse of the stripped list is itself a `dropWhile` result
    have : (pyStripL l).reverse = (l.dropWhile isPySpace).reverse.dropWhile isPySpace := by
      simp [pyStripL]
    rw [this, dropWhile_idem]

theorem pyStripL_length_le (l : List Char) : (pyStripL l).length ≤ l.length := by
  unfold pyStripL
  calc (((l.dropWhile isPySpace).reverse.dropWhile isPySpace).reverse).length
      = ((l.dropWhile isPySpace).reverse.dropWhile isPySpace).length := by simp
    _ ≤ (l.dropWhile isPySpace).reverse.length := (List.dropWhile_sublist _).length_le
    _ = (l.dropWhile isPySpace).length := by simp
    _ ≤ l.length := (List.dropWhile_sublist _).length_le

theorem pyStrip_idem (s : String) : pyStrip (pyStrip s) = pyStrip s := by
  show (⟨pyStripL (⟨pyStripL s.data⟩ : String).data⟩ : String) = ⟨pyStripL s.data⟩
  rw [show (⟨pyStripL s.data⟩ : String).data = pyStripL s.data from rfl, pyStripL_idem]

/-- Stripping the gap `'\n' :: b ++ ['\n']` of a reconstructed section gives
back exactly the (already stripped) body. -/
theorem pyStripL_wrap {b : List Char} (hb : pyStripL b = b) :
    pyStripL ('\n' :: (b ++ ['\n'])) = b := by
  obtain ⟨h1, h2⟩ := (pyStripL_eq_self_iff b).mp hb
  cases b with
  | nil => decide
  | cons x xs =>
    have hx : isPySpace x = false := head_not_of_dropWhile_eq h1
    show ((('\n' :: (x :: xs ++ ['\n'])).dropWhile isPySpace).reverse.dropWhile
        isPySpace).reverse = x :: xs
    rw [List.dropWhile_cons_of_pos (by decide), List.cons_append,
      List.dropWhile_cons_of_neg (by simp [hx])]
    rw [show (x :: (xs ++ ['\n'])).reverse = '\n' :: (x :: xs).reverse by simp]
    rw [List.dropWhile_cons_of_pos (by decide), h2]
    simp

/-! ## Characterizing `extract_sections` -/

theorem data_append (a b : String) : (a ++ b).data = a.data ++ b.data := rfl

theorem pairUp_interleave :
    ∀ (ps : List (List Char × List Char)),
      pairUp ((ps.map (fun p => [(⟨p.1⟩ : String), (⟨p.2⟩ : String)])).flatten)
        = ps.map (fun p => ((⟨p.1⟩ : String), (⟨p.2⟩ : String))) := by
  intro ps
  induction ps with
  | nil => rfl
  | cons p ps ih => simp [pairUp, ih]

theorem extract_sections_eq (content : String) :
    extract_sections content =
      if (scanH2 content.data true).2 = [] then none
      else some ((scanH2 content.data true).2.map
        (fun q => Section.mk (pyStrip ⟨q.1⟩) (pyStrip ⟨q.2⟩))) := by
  unfold extract_sections reSplitH2
  cases hps : (scanH2 content.data true).2 with
  | nil => simp [pairUp, hps]
  | cons p ps =>
    simp only [hps, if_neg (by simp : ¬(p :: ps = []))]
    have htail :
        ((⟨(scanH2 content.data true).1⟩ : String) ::
          (((p :: ps).map (fun q => [(⟨q.1⟩ : String), (⟨q.2⟩ : String)])).flatten)).tail
          = ((p :: ps).map (fun q => [(⟨q.1⟩ : String), (⟨q.2⟩ : String)])).flatten := rfl
    simp only [htail, pairUp_interleave (p :: ps)]
    simp [List.map_map, Function.comp]

/-! ## Claim C5 -/

/-- Claim C5: `segment` discards the portion of the text before the first
level-2 heading (prepending heading-free, newline-terminated text does not
change the result), each (heading-text, body-text) pair becomes one Section
with both fields trimmed (strip-idempotent), and a text with fewer than one
level-2 heading (no line start carries `##` followed by whitespace, the
`^##\s` grammar the spec documents) yields the empty result. -/
theorem c5_segmentation (pre s : String)
    (hpre : noH2MarkerAux pre.data true = true)
    (hlast : pre = "" ∨ pre.data.getLast? = some '\n') :
    extract_sections (pre ++ s) = extract_sections s ∧
    (noH2MarkerAux s.data true = true → extract_sections s = none) ∧
    sectionsTrimmed (extract_sections s) = true := by
  refine ⟨?_, ?_, ?_⟩
  · have hscan : scanH2 (pre.data ++ s.data) true =
        (pre.data ++ (scanH2 s.data true).1, (scanH2 s.data true).2) := by
      apply scanH2_append_of_noMarker pre.data true s.data hpre (fun _ => rfl)
      intro hne
      cases hlast with
      | inl h => exact absurd (by simp [h]) hne
      | inr h => exact h
    rw [extract_sections_eq (pre ++ s), extract_sections_eq s, data_append, hscan]
  · intro hs
    rw [extract_sections_eq s, scanH2_of_noMarker s.data true hs]
    simp
  · rw [extract_sections_eq s]
    cases hps : (scanH2 s.data true).2 with
    | nil => rfl
    | cons p ps =>
      rw [if_neg (by simp)]
      have hunfold : sectionsTrimmed
          (some ((p :: ps).map (fun q => Section.mk (pyStrip ⟨q.1⟩) (pyStrip ⟨q.2⟩)))) =
        ((p :: ps).map (fun q => Section.mk (pyStrip ⟨q.1⟩) (pyStrip ⟨q.2⟩))).all
          (fun sec => (pyStrip sec.title == sec.title) &&
            (pyStrip sec.content == sec.content)) := rfl
      rw [hunfold, List.all_eq_true]
      intro sec hsec
      rw [List.mem_map] at hsec
      obtain ⟨q, _, rfl⟩ := hsec
      simp [pyStrip_idem]

theorem c5_segmentation_witness :
    extract_sections ("intro text\n" ++ "## A\nbody") = extract_sections "## A\nbody" ∧
    (noH2MarkerAux ("## A\nbody" : String).data true = true →
      extract_sections "## A\nbody" = none) ∧
    sectionsTrimmed (extract_sections "## A\nbody") = true :=
  c5_segmentation "intro text\n" "## A\nbody" (by decide) (Or.inr (by decide))

/-- Counterexample to claim C10 as stated: `"##  \n## B"` contains two lines
beginning with the `##` marker, but the greedy `\s+` of the pattern crosses
the newline and a single match captures `"## B"`, so segmentation returns one
Section, not two. -/
theorem c10_counterexample :
    h2HeadingLineCount "##  \n## B" = 2 ∧ sectionCount "##  \n## B" = 1 ∧
    extract_sections "##  \n## B" = some [⟨"## B", ""⟩] := by decide

/-- Claim C10 (amended): `segment` produces exactly one Section per regex
match of the H2 pattern in the multiline scan — not per heading line, since
`\s+` may span a line break.  A trailing heading with a title and no
following body still yields a Section whose content is the empty string. -/
theorem c10_section_per_match :
    (∀ content : String, sectionCount content = h2MatchCount content) ∧
    extract_sections "## A\nbody\n## End" = some [⟨"A", "body"⟩, ⟨"End", ""⟩] := by
  constructor
  · intro content
    unfold sectionCount h2MatchCount
    rw [extract_sections_eq]
    cases hps : (scanH2 content.data true).2 with
    | nil => simp
    | cons p ps => simp
  · decide

theorem takeWhile_append_of_all {p : Char → Bool} {xs : List Char} {y : Char} {ys : List Char}
    (hxs : ∀ c ∈ xs, p c = true) (hy : p y = false) :
    (xs ++ y :: ys).takeWhile p = xs ∧ (xs ++ y :: ys).dropWhile p = y :: ys := by
  induction xs with
  | nil => simp [List.takeWhile_cons, List.dropWhile_cons, hy]
  | cons x xs ih =>
    have hx : p x = true := hxs x (by simp)
    obtain ⟨h1, h2⟩ := ih (fun c hc => hxs c (by simp [hc]))
    simp [List.takeWhile_cons, List.dropWhile_cons, hx, h1, h2]

theorem matchH2_cons_cons (rest : List Char) :
    matchH2 ('#' :: '#' :: rest) =
      (if (rest.takeWhile isPySpace).isEmpty then none
       else
         match rest.dropWhile isPySpace with
         | [] => btCapRun ((rest.takeWhile isPySpace).drop 1)
         | _ :: _ => some ((rest.dropWhile isPySpace).takeWhile (fun c => !(c == '\n')),
             (rest.dropWhile isPySpace).dropWhile (fun c => !(c == '\n')))) := rfl

theorem scanH2_reconstructNL :
    ∀ (L : List Section), (∀ sec ∈ L, wfSection sec) →
      scanH2 (reconstructNL L).data true =
        ([], L.map (fun sec => (sec.title.data, '\n' :: (sec.content.data ++ ['\n'])))) := by
  intro L
  induction L with
  | nil => intro _; rfl
  | cons sec L ih =>
    intro hwf
    obtain ⟨ht_strip, ht_ne, ht_nl, hb_strip, hb_marker⟩ := hwf sec (by simp)
    have hdata : (reconstructNL (sec :: L)).data =
        '#' :: '#' :: ' ' :: (sec.title.data ++
          ('\n' :: (sec.content.data ++ ('\n' :: (reconstructNL L).data)))) := by
      show ("## " ++ sec.title ++ "\n" ++ sec.content ++ "\n" ++ reconstructNL L).data = _
      simp only [data_append]
      simp
    have htd_ne : sec.title.data ≠ [] := by
      intro hd
      exact ht_ne (String.ext (hd.trans rfl))
    obtain ⟨x, xs, hxs⟩ : ∃ x xs, sec.title.data = x :: xs := by
      cases hxd : sec.title.data with
      | nil => exact absurd hxd htd_ne
      | cons x xs => exact ⟨x, xs, rfl⟩
    have hx_ws : isPySpace x = false := by
      have hstrip_data : pyStripL sec.title.data = sec.title.data := by
        have := congrArg String.data ht_strip
        simpa [pyStrip] using this
      have h1 := ((pyStripL_eq_self_iff sec.title.data).mp hstrip_data).1
      rw [hxs] at h1
      exact head_not_of_dropWhile_eq h1
    have ht_non_nl : ∀ c ∈ sec.title.data, (!(c == '\n')) = true := by
      intro c hc
      simp only [Bool.not_eq_eq_eq_not, Bool.not_true, beq_eq_false_iff_ne]
      intro hcn
      exact ht_nl (hcn ▸ hc)
    have hrun : (' ' :: (sec.title.data ++
        ('\n' :: (sec.content.data ++ ('\n' :: (reconstructNL L).data))))).takeWhile isPySpace
        = [' '] := by
      rw [List.takeWhile_cons_of_pos (by decide), hxs]
      rw [List.cons_append, List.takeWhile_cons_of_neg (by simp [hx_ws])]
    have hdrop : (' ' :: (sec.title.data ++
        ('\n' :: (sec.content.data ++ ('\n' :: (reconstructNL L).data))))).dropWhile isPySpace
        = sec.title.data ++ ('\n' :: (sec.content.data ++ ('\n' :: (reconstructNL L).data))) := by
      rw [List.dropWhile_cons_of_pos (by decide), hxs]
      rw [List.cons_append, List.dropWhile_cons_of_neg (by simp [hx_ws])]
    -- the match at the head of the reconstruction captures exactly the title
    have hm : matchH2 ((reconstructNL (sec :: L)).data) =
        some (sec.title.data,
          '\n' :: (sec.content.data ++ ('\n' :: (reconstructNL L).data))) := by
      rw [hdata, matchH2_cons_cons, hrun, hdrop]
      rw [if_neg (by decide)]
      obtain ⟨htw, hdw⟩ := @takeWhile_append_of_all (fun c => !(c == '\n'))
        sec.title.data '\n' (sec.content.data ++ ('\n' :: (reconstructNL L).data))
        ht_non_nl (by decide)
      rw [hxs, List.cons_append]
      dsimp only
      rw [← List.cons_append, ← hxs, htw, hdw]
    -- the gap after the captured title reaches the next reconstructed block
    have hrest : scanH2 ('\n' :: (sec.content.data ++ ('\n' :: (reconstructNL L).data))) false =
        ('\n' :: (sec.content.data ++ ['\n']), (scanH2 (reconstructNL L).data true).2) := by
      have hg : ('\n' :: (sec.content.data ++ ['\n'])) ++ (reconstructNL L).data =
          '\n' :: (sec.content.data ++ ('\n' :: (reconstructNL L).data)) := by
        simp
      rw [← hg]
      rw [scanH2_append_of_noMarker ('\n' :: (sec.content.data ++ ['\n'])) false
        (reconstructNL L).data
        (by simp [noH2MarkerAux, isH2MarkerHead_short₁ '\n' (by decide), hb_marker])
        (by intro h; exact absurd h (by simp))
        (by
          intro _
          rw [show ('\n' :: (sec.content.data ++ ['\n'])) = ('\n' :: sec.content.data) ++ ['\n'] by simp]
          exact List.getLast?_concat _)]
      rw [ih (fun s hs => hwf s (by simp [hs]))]
      simp
    rw [hdata] at hm ⊢
    rw [scanH2_cons_true_match hm, hrest]
    rw [ih (fun s hs => hwf s (by simp [hs]))]
    simp

/-- Counterexample to claim C6 as stated: segmenting `"## A\nx\n## B\ny"`
yields sections `("A","x"), ("B","y")`; the claim's reconstruction
`"## " + title + "\n" + body` concatenates to `"## A\nx## B\ny"`, where the
second heading no longer sits at a line start, so re-segmentation merges
everything into a single section. -/
theorem c6_counterexample :
    extract_sections "## A\nx\n## B\ny" = some [⟨"A", "x"⟩, ⟨"B", "y"⟩] ∧
    reconstructClaim [⟨"A", "x"⟩, ⟨"B", "y"⟩] = "## A\nx## B\ny" ∧
    extract_sections "## A\nx## B\ny" = some [⟨"A", "x## B\ny"⟩] ∧
    (some [(⟨"A", "x## B\ny"⟩ : Section)] ≠ some [(⟨"A", "x"⟩ : Section), ⟨"B", "y"⟩]) := by
  decide

/-- Claim C6 (amended): re-segmentation is idempotent for the
newline-terminated reconstruction `"## " + title + "\n" + body + "\n"`,
provided every title is nonempty (and single-line) and no line of a body
carries the `##` marker; without the terminating newline after each body (or
with an empty title) re-segmentation can merge or drop sections, as the
counterexample shows. -/
theorem c6_resegment_idempotent (L : List Section) (hne : L ≠ [])
    (hwf : ∀ sec ∈ L, wfSection sec) :
    extract_sections (reconstructNL L) = some L := by
  rw [extract_sections_eq, scanH2_reconstructNL L hwf]
  cases L with
  | nil => exact absurd rfl hne
  | cons sec L =>
    rw [if_neg (by simp)]
    congr 1
    rw [List.map_map]
    have : ∀ s ∈ sec :: L,
        ((fun q => Section.mk (pyStrip ⟨q.1⟩) (pyStrip ⟨q.2⟩)) ∘
          (fun s => (s.title.data, '\n' :: (s.content.data ++ ['\n'])))) s = id s := by
      intro s hs
      obtain ⟨ht_strip, _, _, hb_strip, _⟩ := hwf s hs
      have h1 : pyStrip (⟨s.title.data⟩ : String) = s.title := ht_strip
      have h2 : pyStrip (⟨'\n' :: (s.content.data ++ ['\n'])⟩ : String) = s.content := by
        show (⟨pyStripL ('\n' :: (s.content.data ++ ['\n']))⟩ : String) = s.content
        rw [pyStripL_wrap (by
          have := congrArg String.data hb_strip
          simpa [pyStrip] using this)]
      simp [Function.comp, h1, h2]
    rw [List.map_congr_left this, List.map_id]

theorem c6_resegment_idempotent_witness :
    extract_sections (reconstructNL [⟨"A", "x"⟩, ⟨"B", "y"⟩]) =
      some [⟨"A", "x"⟩, ⟨"B", "y"⟩] :=
  c6_resegment_idempotent [⟨"A", "x"⟩, ⟨"B", "y"⟩] (by decide) (by decide)

theorem wordCountAux_mkWords : ∀ n : Nat, wordCountAux (mkWords n) false = n := by
  intro n
  induction n with
  | zero => rfl
  | succ n ih =>
    simp [mkWords, wordCountAux, isPySpace, ih]
    omega

/-- Claim C7: the computed reading time is
`max(1, round(wordCount(text) / 200))` minutes with `wordCount` the
whitespace-delimited token count (`round` being Python's round, i.e.
half-to-even on the exact quotient); 150 words give 1 minute, 1000 words
give 5 minutes, and 0 words give 1 minute. -/
theorem c7_reading_time :
    (∀ text : String,
      calculate_reading_time text = max 1 (pyRoundHalfEven (wordCount text) 200)) ∧
    (∀ n : Nat, calculate_reading_time ⟨mkWords n⟩ = max 1 (pyRoundHalfEven n 200)) ∧
    calculate_reading_time ⟨mkWords 150⟩ = 1 ∧
    calculate_reading_time ⟨mkWords 1000⟩ = 5 ∧
    calculate_reading_time "" = 1 := by
  have hw : ∀ n : Nat, wordCount (⟨mkWords n⟩ : String) = n := fun n => wordCountAux_mkWords n
  have hmk : ∀ n : Nat, calculate_reading_time ⟨mkWords n⟩ = max 1 (pyRoundHalfEven n 200) := by
    intro n
    unfold calculate_reading_time
    rw [hw n]
    rfl
  refine ⟨fun _ => rfl, hmk, ?_, ?_, rfl⟩
  · rw [hmk 150]; decide
  · rw [hmk 1000]; decide

example : extract_title_from_content "# My Title \nBody" = "My Title" := by decide

example : extract_title_from_content "#\tTabbed\nBody" = "Untitled Article" := by decide

example : h1Found "# Title\nBody" = true := by decide

example : h1Found "#\tTitle\nBody" = true := by decide

example : h1Found "#\nBody" = true := by decide

example : h1Found "## Only H2" = false := by decide

example : h1Found "no heading" = false := by decide

example : countH23 "## A\n### B\n#### C\n# D" = 2 := by decide

/-- Counterexample to claim C9 as stated: `"#\tTitle\nBody"` contains no
level-1 heading in the claim's sense (one `#` followed by a space), yet
the validator's `^#\s+.+$` search matches the tab, so no issue mentions
"H1"; the title extractor (which tests the literal prefix `"# "`) still
returns "Untitled Article". -/
theorem c9_counterexample :
    ((splitLines ("#\tTitle\nBody" : String).data).all
      (fun l => !(l.take 2 == ['#', ' ']))) = true ∧
    extract_title_from_content "#\tTitle\nBody" = "Untitled Article" ∧
    (validate_article_content "#\tTitle\nBody" sampleRequest).valid = false ∧
    ((validate_article_content "#\tTitle\nBody" sampleRequest).issues.all
      (fun i => !(strContainsSub i "H1"))) = true := by decide

/-- Claim C9 (amended): the validator and the title extractor use different
heading detectors.  When the `^#\s+.+$` multiline search finds no match, the
validator reports `valid = false` with the issue "No H1 title found"; when no
line starts with the literal `"# "`, the extractor returns
"Untitled Article". -/
theorem c9_no_h1 (content : String) (req : ArticleGenerationRequest)
    (h1 : h1Found content = false)
    (h2 : ((splitLines content.data).all (fun l => !(l.take 2 == ['#', ' ']))) = true) :
    (validate_article_content content req).valid = false ∧
    "No H1 title found" ∈ (validate_article_content content req).issues ∧
    extract_title_from_content content = "Untitled Article" := by
  have hmem : "No H1 title found" ∈ (validate_article_content content req).issues := by
    simp [validate_article_content, h1]
  refine ⟨?_, hmem, ?_⟩
  · have hne : (validate_article_content content req).issues ≠ [] :=
      List.ne_nil_of_mem hmem
    have hval : (validate_article_content content req).valid =
        (validate_article_content content req).issues.isEmpty := rfl
    rw [hval]
    simpa using hne
  · unfold extract_title_from_content
    rw [List.find?_eq_none.mpr ?hnone]
    case hnone =>
      intro l hl
      have := (List.all_eq_true.mp h2) l hl
      simpa using this

theorem c9_no_h1_witness :
    (validate_article_content "just some plain text" sampleRequest).valid = false ∧
    "No H1 title found" ∈ (validate_article_content "just some plain text" sampleRequest).issues ∧
    extract_title_from_content "just some plain text" = "Untitled Article" :=
  c9_no_h1 "just some plain text" sampleRequest (by decide) (by decide)

theorem truncateStr_length (d : String) :
    (truncateStr d).data.length ≤ META_DESCRIPTION_MAX_LENGTH := by
  unfold truncateStr
  by_cases h : META_DESCRIPTION_MAX_LENGTH < d.data.length
  · rw [if_pos h, data_append, List.length_append]
    have h157 : ((⟨d.data.take META_DESCRIPTION_TRUNCATE_LENGTH⟩ : String)).data.length ≤ 157 := by
      show (d.data.take META_DESCRIPTION_TRUNCATE_LENGTH).length ≤ 157
      rw [List.length_take]
      exact Nat.min_le_left _ _
    have h3 : (("..." : String)).data.length = 3 := rfl
    rw [h3]
    unfold META_DESCRIPTION_MAX_LENGTH
    omega
  · rw [if_neg h]
    unfold META_DESCRIPTION_MAX_LENGTH at h ⊢
    omega

theorem truncateStr_short {d : String}
    (h : d.data.length ≤ META_DESCRIPTION_MAX_LENGTH) : truncateStr d = d := by
  unfold truncateStr
  rw [if_neg (by omega)]

theorem finalMetaDescription_length (content : String) (req : ArticleGenerationRequest)
    (llm : Except String Json) :
    (finalMetaDescription content req llm).data.length ≤ META_DESCRIPTION_MAX_LENGTH :=
  truncateStr_length _

theorem fallback_meta_description_length (content : String) :
    (fallback_meta_description content).data.length ≤ 153 := by
  unfold fallback_meta_description
  rw [data_append, List.length_append]
  have h1 := pyStripL_length_le
    ((content.data.take META_DESCRIPTION_FALLBACK_LENGTH).filter (fun c => !(c == '#')))
  have h2 : ((content.data.take META_DESCRIPTION_FALLBACK_LENGTH).filter
      (fun c => !(c == '#'))).length ≤
      (content.data.take META_DESCRIPTION_FALLBACK_LENGTH).length :=
    (List.filter_sublist _).length_le
  have h3 : (content.data.take META_DESCRIPTION_FALLBACK_LENGTH).length ≤ 150 := by
    rw [List.length_take]
    unfold META_DESCRIPTION_FALLBACK_LENGTH
    exact Nat.min_le_left _ _
  have h4 : ((pyStrip ⟨(content.data.take META_DESCRIPTION_FALLBACK_LENGTH).filter
      (fun c => !(c == '#'))⟩ : String)).data.length =
      (pyStripL ((content.data.take META_DESCRIPTION_FALLBACK_LENGTH).filter
        (fun c => !(c == '#')))).length := rfl
  have h5 : (("..." : String)).data.length = 3 := rfl
  rw [h4, h5]
  omega

theorem calculate_reading_time_pos (text : String) :
    MIN_READING_TIME_MINUTES ≤ calculate_reading_time text :=
  le_max_left _ _

/-! ## Structure of the JSON-level metadata step -/

theorem jsonMem_map_str (s : String) (xs : List String) :
    jsonMem (Json.str s) (xs.map Json.str) = true ↔ s ∈ xs := by
  induction xs with
  | nil =>
    show false = true ↔ s ∈ ([] : List String)
    simp
  | cons x xs ih =>
    show (jsonBeq (Json.str s) (Json.str x) || jsonMem (Json.str s) (xs.map Json.str)) = true ↔ _
    rw [show jsonBeq (Json.str s) (Json.str x) = (s == x) from rfl]
    rw [Bool.or_eq_true, beq_iff_eq, ih, List.mem_cons]

theorem jsonDedup_map_str (xs : List String) :
    jsonDedup (xs.map Json.str) = (xs.dedup).map Json.str := by
  induction xs with
  | nil => rfl
  | cons x xs ih =>
    show (if jsonMem (Json.str x) (xs.map Json.str) then jsonDedup (xs.map Json.str)
      else Json.str x :: jsonDedup (xs.map Json.str)) = ((x :: xs).dedup).map Json.str
    by_cases hx : x ∈ xs
    · rw [if_pos ((jsonMem_map_str x xs).mpr hx), ih, List.dedup_cons_of_mem hx]
    · have hm : ¬ jsonMem (Json.str x) (xs.map Json.str) = true := by
        intro hc
        exact hx ((jsonMem_map_str x xs).mp hc)
      rw [if_neg hm, ih, List.dedup_cons_of_not_mem hx, List.map_cons]

theorem jsonStrListOf_map_str (xs : List String) :
    jsonStrListOf (xs.map Json.str) = some xs := by
  induction xs with
  | nil => rfl
  | cons x xs ih =>
    show (match jsonStrListOf (xs.map Json.str) with
      | some l => some (x :: l)
      | none => none) = some (x :: xs)
    simp only [ih]

theorem all_str_decomp : ∀ {l : List Json}, l.all isJsonStr = true →
    l = (jsonStrs l).map Json.str := by
  intro l
  induction l with
  | nil => intro _; rfl
  | cons x xs ih =>
    intro h
    rw [List.all_cons, Bool.and_eq_true] at h
    cases x with
    | str s =>
      show Json.str s :: xs = (jsonStrs (Json.str s :: xs)).map Json.str
      rw [show jsonStrs (Json.str s :: xs) = s :: jsonStrs xs from rfl, List.map_cons,
        ← ih h.2]
    | null => simp [isJsonStr] at h
    | bool b => simp [isJsonStr] at h
    | num n => simp [isJsonStr] at h
    | arr l2 => simp [isJsonStr] at h
    | obj f => simp [isJsonStr] at h

theorem no_unhashable_of_all_str : ∀ {l : List Json}, l.all isJsonStr = true →
    l.any jsonUnhashable = false := by
  intro l
  induction l with
  | nil => intro _; rfl
  | cons x xs ih =>
    intro h
    rw [List.all_cons, Bool.and_eq_true] at h
    rw [List.any_cons]
    have hx : jsonUnhashable x = false := by
      cases x with
      | str s => rfl
      | null => rfl
      | bool b => rfl
      | num n => rfl
      | arr l2 => simp [isJsonStr] at h
      | obj f => simp [isJsonStr] at h
    rw [hx, ih h.2]
    rfl

/-- The keyword chain of lines 269-271 plus the pydantic `List[str]` check,
on a payload list of strings: the `Json` detour computes the plain
concatenate-dedup-truncate on the underlying strings. -/
theorem keywords_chain (rk : List String) {l : List Json} (h : l.all isJsonStr = true) :
    jsonStrListOf ((jsonDedup (rk.map Json.str ++ l)).take settings_max_keywords) =
      some (((rk ++ jsonStrs l).dedup).take settings_max_keywords) := by
  conv_lhs => rw [all_str_decomp h]
  rw [← List.map_append, jsonDedup_map_str, ← List.map_take, jsonStrListOf_map_str]

theorem metaLenStep_str (s : String) :
    metaLenStep (Json.str s) = Except.ok (Json.str (truncateStr s)) := by
  unfold metaLenStep truncateStr
  show (if META_DESCRIPTION_MAX_LENGTH < s.data.length then
      Except.ok (Json.str ((⟨s.data.take META_DESCRIPTION_TRUNCATE_LENGTH⟩ : String) ++ "..."))
    else Except.ok (Json.str s)) = _
  by_cases h : META_DESCRIPTION_MAX_LENGTH < s.data.length
  · rw [if_pos h, if_pos h]
  · rw [if_neg h, if_neg h]

/-- On a `null` or string `meta_description` value, lines 274-281 cannot
raise and produce the capped candidate. -/
theorem metaStep_ok_of_shaped (content : String) (mdJson : Json)
    (h : mdShapeOk mdJson = true) :
    metaStep content mdJson =
      Except.ok (Json.str (truncateStr (metaCandidateOfPayload content mdJson))) := by
  cases mdJson with
  | null =>
    show metaLenStep (Json.str (fallback_meta_description content)) = _
    rw [metaLenStep_str]
    rfl
  | str s =>
    by_cases hs : s = ""
    · subst hs
      show metaLenStep (Json.str (fallback_meta_description content)) = _
      rw [metaLenStep_str]
      rfl
    · have ht : jsonTruthy (Json.str s) = true := by
        show (!(s == "")) = true
        simp [hs]
      unfold metaStep
      rw [ht]
      show metaLenStep (Json.str s) = _
      rw [metaLenStep_str]
      show Except.ok (Json.str (truncateStr s)) = Except.ok (Json.str
        (truncateStr (if s = "" then fallback_meta_description content else s)))
      rw [if_neg hs]
  | bool b => simp [mdShapeOk] at h
  | num n => simp [mdShapeOk] at h
  | arr l => simp [mdShapeOk] at h
  | obj f => simp [mdShapeOk] at h

/-- Whatever the `meta_description` value, an `ArticleMetadata`-compatible
result of lines 274-281 is the capped candidate string. -/
theorem metaStep_ok_str {content : String} {mdJson md : Json} {mdOpt : Option String}
    (h : metaStep content mdJson = Except.ok md) (hopt : jsonOptStr md = some mdOpt) :
    mdOpt = some (truncateStr (metaCandidateOfPayload content mdJson)) := by
  cases mdJson with
  | null =>
    rw [metaStep_ok_of_shaped content Json.null rfl] at h
    injection h with h'
    rw [← h'] at hopt
    injection hopt with h''
    exact h''.symm
  | str s =>
    rw [metaStep_ok_of_shaped content (Json.str s) rfl] at h
    injection h with h'
    rw [← h'] at hopt
    injection hopt with h''
    exact h''.symm
  | bool b =>
    cases b with
    | false =>
      have h2 : metaLenStep (Json.str (fallback_meta_description content)) =
          Except.ok md := h
      rw [metaLenStep_str] at h2
      injection h2 with h'
      rw [← h'] at hopt
      injection hopt with h''
      exact h''.symm
    | true =>
      have h2 : (Except.error "TypeError: object of type bool has no len" :
          Except String Json) = Except.ok md := h
      exact Except.noConfusion h2
  | num n =>
    by_cases hn : n = 0
    · subst hn
      have h2 : metaLenStep (Json.str (fallback_meta_description content)) =
          Except.ok md := h
      rw [metaLenStep_str] at h2
      injection h2 with h'
      rw [← h'] at hopt
      injection hopt with h''
      exact h''.symm
    · have ht : jsonTruthy (Json.num n) = true := by
        show (!(n == 0)) = true
        simp [hn]
      unfold metaStep at h
      rw [ht] at h
      have h2 : (Except.error "TypeError: object of type int or float has no len" :
          Except String Json) = Except.ok md := h
      exact Except.noConfusion h2
  | arr l =>
    cases l with
    | nil =>
      have h2 : metaLenStep (Json.str (fallback_meta_description content)) =
          Except.ok md := h
      rw [metaLenStep_str] at h2
      injection h2 with h'
      rw [← h'] at hopt
      injection hopt with h''
      exact h''.symm
    | cons a as =>
      have h2 : (if META_DESCRIPTION_MAX_LENGTH < (a :: as).length then
          (Except.error "TypeError: unsupported slice or concatenation" :
            Except String Json)
        else Except.ok (Json.arr (a :: as))) = Except.ok md := h
      by_cases hl : META_DESCRIPTION_MAX_LENGTH < (a :: as).length
      · rw [if_pos hl] at h2
        exact Except.noConfusion h2
      · rw [if_neg hl] at h2
        injection h2 with h'
        rw [← h'] at hopt
        exact Option.noConfusion hopt
  | obj f =>
    cases f with
    | nil =>
      have h2 : metaLenStep (Json.str (fallback_meta_description content)) =
          Except.ok md := h
      rw [metaLenStep_str] at h2
      injection h2 with h'
      rw [← h'] at hopt
      injection hopt with h''
      exact h''.symm
    | cons p ps =>
      have h2 : (if META_DESCRIPTION_MAX_LENGTH < (p :: ps).length then
          (Except.error "TypeError: unsupported slice or concatenation" :
            Except String Json)
        else Except.ok (Json.obj (p :: ps))) = Except.ok md := h
      by_cases hl : META_DESCRIPTION_MAX_LENGTH < (p :: ps).length
      · rw [if_pos hl] at h2
        exact Except.noConfusion h2
      · rw [if_neg hl] at h2
        injection h2 with h'
        rw [← h'] at hopt
        exact Option.noConfusion hopt

/-- On a well-shaped payload the metadata step provably succeeds and
computes the expected fields. -/
theorem extractStage_ok_of_shaped (content : String) (req : ArticleGenerationRequest)
    (extracted : Json) (h : jsonWellShaped extracted = true) :
    extractStage content req extracted =
      Except.ok
        { title := extract_title_from_content content
          meta_description := some (truncateStr (metaCandidateOfPayload content
            (jsonGetD extracted "meta_description" Json.null)))
          keywords := ((req.keywords ++ jsonStrs (kwElemsOf extracted)).dedup).take
            settings_max_keywords
          reading_time_minutes := calculate_reading_time content
          word_count := wordCount content
          industry := req.industry
          audience := req.audience
          tone := req.tone
          model_used := settings_llm_model
          rag_sources_count := 0 } := by
  unfold jsonWellShaped at h
  rw [Bool.and_eq_true, Bool.and_eq_true] at h
  obtain ⟨⟨hobj, hkws⟩, hmd⟩ := h
  cases hkw : jsonGetD extracted "keywords" (Json.arr []) with
  | arr kwElems =>
    simp only [hkw] at hkws
    have hkel : kwElemsOf extracted = kwElems := by
      unfold kwElemsOf
      rw [hkw]
    have hnu : kwElems.any jsonUnhashable = false := no_unhashable_of_all_str hkws
    have hchain := keywords_chain req.keywords hkws
    have hms := metaStep_ok_of_shaped content
      (jsonGetD extracted "meta_description" Json.null) hmd
    rw [hkel]
    unfold extractStage
    rw [if_pos hobj]
    simp only [hkw]
    rw [if_neg (show ¬ kwElems.any jsonUnhashable = true by simp [hnu])]
    simp only [hms, hchain, jsonOptStr]
    unfold mkArticleMetadata
    rw [if_neg ?hlen, if_neg ?hrt]
    case hlen =>
      have hl := truncateStr_length (metaCandidateOfPayload content
        (jsonGetD extracted "meta_description" Json.null))
      show ¬ metaDescriptionTooLong (some (truncateStr (metaCandidateOfPayload content
        (jsonGetD extracted "meta_description" Json.null)))) = true
      unfold metaDescriptionTooLong
      simp only [decide_eq_true_eq]
      omega
    case hrt =>
      have hp := calculate_reading_time_pos content
      omega
  | null => simp only [hkw] at hkws; simp at hkws
  | bool b => simp only [hkw] at hkws; simp at hkws
  | num n => simp only [hkw] at hkws; simp at hkws
  | str s => simp only [hkw] at hkws; simp at hkws
  | obj f => simp only [hkw] at hkws; simp at hkws

/-- Under the `seoPayloadOk` side condition the whole metadata extraction
succeeds with the expected fields (in particular: always, when the LLM
sub-call failed). -/
theorem extract_article_metadata_core_ok (content : String)
    (req : ArticleGenerationRequest) (llm : Except String Json)
    (h : seoPayloadOk req llm = true) :
    extract_article_metadata_core content req llm =
      Except.ok
        { title := extract_title_from_content content
          meta_description := some (finalMetaDescription content req llm)
          keywords := ((req.keywords ++ payloadKeywords content req llm).dedup).take
            settings_max_keywords
          reading_time_minutes := calculate_reading_time content
          word_count := wordCount content
          industry := req.industry
          audience := req.audience
          tone := req.tone
          model_used := settings_llm_model
          rag_sources_count := 0 } := by
  have hws : jsonWellShaped (extractedPayload content req llm) = true := by
    unfold seoPayloadOk at h
    unfold extractedPayload
    cases hseo : req.generate_seo_metadata with
    | false => rfl
    | true =>
      rw [hseo] at h
      cases llm with
      | error e => rfl
      | ok j => exact h
  unfold extract_article_metadata_core
  rw [extractStage_ok_of_shaped content req (extractedPayload content req llm) hws]
  rfl

theorem extract_article_metadata_ok_of (content : String)
    (req : ArticleGenerationRequest) (rag : Nat) (llm : Except String Json)
    (h : seoPayloadOk req llm = true) :
    extract_article_metadata content req rag llm =
      Except.ok
        { title := extract_title_from_content content
          meta_description := some (finalMetaDescription content req llm)
          keywords := ((req.keywords ++ payloadKeywords content req llm).dedup).take
            settings_max_keywords
          reading_time_minutes := calculate_reading_time content
          word_count := wordCount content
          industry := req.industry
          audience := req.audience
          tone := req.tone
          model_used := settings_llm_model
          rag_sources_count := rag } := by
  unfold extract_article_metadata
  rw [extract_article_metadata_core_ok content req llm h]

/-- Every `ArticleMetadata` the metadata step produces carries the capped
candidate as its meta description — whatever JSON value the sub-call
parsed. -/
theorem extract_core_ok_meta {content : String} {req : ArticleGenerationRequest}
    {llm : Except String Json} {m : ArticleMetadata}
    (h : extract_article_metadata_core content req llm = Except.ok m) :
    m.meta_description = some (finalMetaDescription content req llm) := by
  unfold extract_article_metadata_core extractStage at h
  by_cases hobj : jsonIsObj (extractedPayload content req llm) = true
  · rw [if_pos hobj] at h
    cases hkw : jsonGetD (extractedPayload content req llm) "keywords" (Json.arr []) with
    | arr kwElems =>
      simp only [hkw] at h
      cases hhash : kwElems.any jsonUnhashable with
      | true =>
        rw [if_pos hhash] at h
        exact Except.noConfusion h
      | false =>
        rw [if_neg (show ¬ kwElems.any jsonUnhashable = true by simp [hhash])] at h
        cases hms : metaStep content
            (jsonGetD (extractedPayload content req llm) "meta_description" Json.null) with
        | error e =>
          simp only [hms] at h
          exact Except.noConfusion h
        | ok md =>
          simp only [hms] at h
          cases hopt : jsonOptStr md with
          | none =>
            simp only [hopt] at h
            exact Except.noConfusion h
          | some mdOpt =>
            simp only [hopt] at h
            cases hsl : jsonStrListOf ((jsonDedup (req.keywords.map Json.str ++
                kwElems)).take settings_max_keywords) with
            | none =>
              simp only [hsl] at h
              exact Except.noConfusion h
            | some ks =>
              simp only [hsl] at h
              unfold mkArticleMetadata at h
              by_cases hlen : metaDescriptionTooLong mdOpt = true
              · rw [if_pos hlen] at h
                exact Except.noConfusion h
              · rw [if_neg hlen] at h
                by_cases hrt : calculate_reading_time content < MIN_READING_TIME_MINUTES
                · rw [if_pos hrt] at h
                  exact Except.noConfusion h
                · rw [if_neg hrt] at h
                  injection h with h'
                  have hval := metaStep_ok_str hms hopt
                  rw [← h']
                  show mdOpt = some (finalMetaDescription content req llm)
                  exact hval
    | null => simp only [hkw] at h; exact Except.noConfusion h
    | bool b => simp only [hkw] at h; exact Except.noConfusion h
    | num n => simp only [hkw] at h; exact Except.noConfusion h
    | str s => simp only [hkw] at h; exact Except.noConfusion h
    | obj f => simp only [hkw] at h; exact Except.noConfusion h
  · rw [if_neg hobj] at h
    exact Except.noConfusion h

/-- Claim C3: every `ArticleMetadata` the extractor produces has a meta
description of at most 160 characters, on both the LLM-assisted path and the
fallback path; whenever the candidate exceeds 160 characters it is replaced
by its first 157 characters followed by the three-character ellipsis. -/
theorem c3_meta_description_bounded (content : String) (req : ArticleGenerationRequest)
    (rag : Nat) (llm : Except String Json) (m : ArticleMetadata)
    (h : extract_article_metadata content req rag llm = Except.ok m) :
    m.meta_description = some (finalMetaDescription content req llm) ∧
    (finalMetaDescription content req llm).data.length ≤ META_DESCRIPTION_MAX_LENGTH ∧
    (META_DESCRIPTION_MAX_LENGTH < (metaDescriptionCandidate content req llm).data.length →
      finalMetaDescription content req llm =
        (⟨(metaDescriptionCandidate content req llm).data.take
          META_DESCRIPTION_TRUNCATE_LENGTH⟩ : String) ++ "...") := by
  refine ⟨?_, finalMetaDescription_length content req llm, ?_⟩
  · unfold extract_article_metadata at h
    cases hcore : extract_article_metadata_core content req llm with
    | error e =>
      simp only [hcore] at h
      exact Except.noConfusion h
    | ok m0 =>
      simp only [hcore] at h
      injection h with h'
      rw [← h']
      show m0.meta_description = _
      exact extract_core_ok_meta hcore
  · intro hgt
    show truncateStr (metaDescriptionCandidate content req llm) = _
    unfold truncateStr
    rw [if_pos hgt]

set_option maxRecDepth 4000 in
theorem c3_meta_description_bounded_witness :
    extract_article_metadata "body text" sampleRequest 0 (Except.ok c3Payload) =
      Except.ok c3Meta ∧
    (c3Meta.meta_description =
      some (finalMetaDescription "body text" sampleRequest (Except.ok c3Payload)) ∧
    (finalMetaDescription "body text" sampleRequest
      (Except.ok c3Payload)).data.length ≤ META_DESCRIPTION_MAX_LENGTH ∧
    (META_DESCRIPTION_MAX_LENGTH < (metaDescriptionCandidate "body text" sampleRequest
        (Except.ok c3Payload)).data.length →
      finalMetaDescription "body text" sampleRequest (Except.ok c3Payload) =
        (⟨(metaDescriptionCandidate "body text" sampleRequest
          (Except.ok c3Payload)).data.take META_DESCRIPTION_TRUNCATE_LENGTH⟩ :
          String) ++ "...")) :=
  ⟨by decide,
   c3_meta_description_bounded "body text" sampleRequest 0 (Except.ok c3Payload)
     c3Meta (by decide)⟩

/-- Counterexample to claim C4 as stated: when the LLM sub-call fails,
`langchain_service.extract_metadata` catches its own exception and returns
`content[:150] + "..."` WITHOUT stripping `#` markers, so for
`"# Hi\nBody"` the meta description keeps the heading marker; the
`#`-stripped fallback the claim describes would give `"Hi\nBody..."`. -/
theorem c4_counterexample :
    metaDescOf (extract_article_metadata "# Hi\nBody" sampleRequest 0
        (Except.error "llm transport error")) = some "# Hi\nBody..." ∧
    fallback_meta_description "# Hi\nBody" = "Hi\nBody..." ∧
    (("# Hi\nBody..." : String) ≠ "Hi\nBody...") := by decide

/-- Claim C4 (amended): when the LLM-assisted extraction sub-call fails, the
meta description used is the first 150 characters of the raw text followed
by an ellipsis, WITHOUT heading-marker stripping (the inner service catches
its own failure and supplies that default); the `#`-stripped 150-character
fallback applies only when extraction succeeds but yields an absent or empty
meta description (here: a payload whose `meta_description` is JSON
`null`). -/
theorem c4_fallback_on_llm_failure (content : String) (req : ArticleGenerationRequest)
    (rag : Nat) (e : String) (hseo : req.generate_seo_metadata = true) :
    metaDescOf (extract_article_metadata content req rag (Except.error e)) =
      some ((⟨content.data.take 150⟩ : String) ++ "...") ∧
    metaDescOf (extract_article_metadata content req rag (Except.ok metaNullPayload)) =
      some (fallback_meta_description content) := by
  have hne : ((⟨content.data.take 150⟩ : String) ++ "...") ≠ "" := by
    intro hq
    have := congrArg String.data hq
    rw [data_append] at this
    simp at this
  have hlen : (((⟨content.data.take 150⟩ : String) ++ "...")).data.length ≤ 153 := by
    rw [data_append]
    simp only [List.length_append, List.length_take]
    have := Nat.min_le_left 150 content.data.length
    show min 150 content.data.length + 3 ≤ 153
    omega
  have hok1 : seoPayloadOk req (Except.error e) = true := by
    unfold seoPayloadOk
    cases hs : req.generate_seo_metadata with
    | false => rfl
    | true => rfl
  have hok2 : seoPayloadOk req (Except.ok metaNullPayload) = true := by
    unfold seoPayloadOk
    cases hs : req.generate_seo_metadata with
    | false => rfl
    | true => decide
  constructor
  · rw [extract_article_metadata_ok_of content req rag (Except.error e) hok1]
    show some (finalMetaDescription content req (Except.error e)) = _
    have hcand : metaDescriptionCandidate content req (Except.error e) =
        (⟨content.data.take 150⟩ : String) ++ "..." := by
      unfold metaDescriptionCandidate extractedPayload
      rw [if_pos hseo]
      show metaCandidateOfPayload content
        (Json.str ((⟨content.data.take 150⟩ : String) ++ "...")) = _
      show (if ((⟨content.data.take 150⟩ : String) ++ "...") = "" then
        fallback_meta_description content
        else ((⟨content.data.take 150⟩ : String) ++ "...")) = _
      rw [if_neg hne]
    unfold finalMetaDescription
    rw [hcand, truncateStr_short (by unfold META_DESCRIPTION_MAX_LENGTH; omega)]
  · rw [extract_article_metadata_ok_of content req rag (Except.ok metaNullPayload) hok2]
    show some (finalMetaDescription content req (Except.ok metaNullPayload)) = _
    have hcand : metaDescriptionCandidate content req (Except.ok metaNullPayload) =
        fallback_meta_description content := by
      unfold metaDescriptionCandidate extractedPayload
      rw [if_pos hseo]
      rfl
    unfold finalMetaDescription
    rw [hcand, truncateStr_short (by
      have := fallback_meta_description_length content
      unfold META_DESCRIPTION_MAX_LENGTH
      omega)]

theorem c4_fallback_on_llm_failure_witness :
    metaDescOf (extract_article_metadata "# Hi\nBody" sampleRequest 0
        (Except.error "llm transport error")) =
      some ((⟨("# Hi\nBody" : String).data.take 150⟩ : String) ++ "...") ∧
    metaDescOf (extract_article_metadata "# Hi\nBody" sampleRequest 0
        (Except.ok metaNullPayload)) =
      some (fallback_meta_description "# Hi\nBody") :=
  c4_fallback_on_llm_failure "# Hi\nBody" sampleRequest 0 "llm transport error" (by decide)

/-- Counterexample to claim C1 as stated: `use_rag` is on, the embedding
call raises and the generator succeeds, yet `success = false` because the
generated content (4 characters) fails the 100-character minimum that
`GeneratedArticle` enforces during result assembly. -/
theorem c1_counterexample :
    sampleRequest.use_rag = true ∧
    c1FailEnv.embedding = Except.error "connection refused" ∧
    c1FailEnv.generation = Except.ok "tiny" ∧
    (generate_article sampleRequest c1FailEnv none 0).success = false := by decide

/-- Claim C1 (amended): with `use_rag` enabled, a failure of the embedding
call or of the similarity search leaves retrieval with the empty list (the
error never propagates), and the pipeline still returns `success = true`
with a RAG source count of 0 — provided the generator call succeeds, its
content passes result assembly (at least 100 characters), and the metadata
step cannot raise: SEO metadata is off, or the metadata sub-call fails (it
degrades internally), or its parsed payload is a well-shaped dict.  (An
ill-shaped parsed payload — e.g. JSON `null` — raises inside the
orchestrator and yields `success = false`.) -/
theorem c1_rag_failure_best_effort (req : ArticleGenerationRequest)
    (env : PipelineOutcomes) (rid : Option String) (elapsed : Nat) (c : String)
    (hrag : req.use_rag = true)
    (hfail : isError env.embedding = true ∨ isError env.search = true)
    (hgen : env.generation = Except.ok c)
    (hlen : GENERATED_ARTICLE_MIN_CONTENT_LENGTH ≤ c.data.length)
    (hseo : seoPayloadOk req env.metadataLLM = true) :
    retrieve_similar_articles env = [] ∧
    (generate_article req env rid elapsed).success = true ∧
    ragSourcesOf (generate_article req env rid elapsed) = some 0 := by
  have hretr : retrieve_similar_articles env = [] := by
    unfold retrieve_similar_articles
    cases hemb : env.embedding with
    | error e => rfl
    | ok u =>
      cases hsearch : env.search with
      | error e => rfl
      | ok results =>
        exfalso
        cases hfail with
        | inl h => rw [hemb] at h; simp [isError] at h
        | inr h => rw [hsearch] at h; simp [isError] at h
  have hnotshort : ¬ (c.data.length < GENERATED_ARTICLE_MIN_CONTENT_LENGTH) := by omega
  have hok := extract_article_metadata_ok_of c req 0 env.metadataLLM hseo
  refine ⟨hretr, ?_, ?_⟩ <;>
    simp only [generate_article, hgen, hrag, if_true, hretr, List.length_nil,
      hok, mkGeneratedArticle, if_neg hnotshort, ragSourcesOf]

set_option maxRecDepth 8000 in
theorem c1_rag_failure_best_effort_witness :
    retrieve_similar_articles c1OkEnv = [] ∧
    (generate_article sampleRequest c1OkEnv none 7).success = true ∧
    ragSourcesOf (generate_article sampleRequest c1OkEnv none 7) = some 0 :=
  c1_rag_failure_best_effort sampleRequest c1OkEnv none 7 longContent
    rfl (Or.inl rfl) rfl (by decide) (by decide)

/-- Counterexample to claim C2 as stated: the generator call succeeds, yet
the response has `success = false` (with an error message), because result
assembly — the pydantic `min_length=100` on `GeneratedArticle.content` —
raises and is caught by the orchestrator's `except`. -/
theorem c2_counterexample :
    c2ShortEnv.generation = Except.ok "Too short." ∧
    (generate_article sampleRequest c2ShortEnv none 0).success = false ∧
    (generate_article sampleRequest c2ShortEnv none 0).error ≠ none := by decide

/-- Claim C2 (amended): `success = false` exactly when the generator call
fails, OR succeeds with content shorter than the 100-character minimum
enforced by `GeneratedArticle` during result assembly, OR succeeds while the
metadata step raises on a successfully parsed but ill-shaped payload (a
non-dict value such as JSON `null`, a non-list `keywords`, unhashable
keyword elements, a truthy non-string `meta_description`, or ill-typed
fields at model validation).  The Retriever and the Validator cannot produce
`success = false` — the failure condition does not mention the embedding or
search outcomes — and neither can a metadata sub-call that FAILS: its
failure is caught inside `extract_metadata`.  A generator exception yields
the failure envelope carrying the human-readable message and the elapsed
time. -/
theorem c2_success_false_iff (req : ArticleGenerationRequest) (env : PipelineOutcomes)
    (rid : Option String) (elapsed : Nat) (e : String) :
    ((generate_article req env rid elapsed).success = false ↔
      (isError env.generation = true ∨ contentTooShort env.generation = true ∨
       metadataStepFails req env.generation env.metadataLLM = true)) ∧
    (env.generation = Except.error e →
      (generate_article req env rid elapsed).error =
        some ("Failed to generate article: " ++ e) ∧
      (generate_article req env rid elapsed).generation_time_seconds = elapsed) ∧
    (∀ (c e' : String),
      metadataStepFails req (Except.ok c) (Except.error e') = false) := by
  refine ⟨?_, ?_, ?_⟩
  · cases hg : env.generation with
    | error e' =>
      simp [generate_article, hg, isError, metadataStepFails]
    | ok c =>
      cases hcore : extract_article_metadata_core c req env.metadataLLM with
      | error me =>
        have hme : extract_article_metadata c req
            (if req.use_rag then retrieve_similar_articles env else []).length
            env.metadataLLM = Except.error me := by
          unfold extract_article_metadata
          rw [hcore]
        simp only [generate_article, hg, hme]
        constructor
        · intro _
          right; right
          show isError (extract_article_metadata_core c req env.metadataLLM) = true
          rw [hcore]
          rfl
        · intro _
          trivial
      | ok m =>
        have hme : extract_article_metadata c req
            (if req.use_rag then retrieve_similar_articles env else []).length
            env.metadataLLM = Except.ok { m with rag_sources_count :=
              (if req.use_rag then retrieve_similar_articles env else []).length } := by
          unfold extract_article_metadata
          rw [hcore]
        by_cases hc : c.data.length < GENERATED_ARTICLE_MIN_CONTENT_LENGTH
        · simp only [generate_article, hg, hme, mkGeneratedArticle, if_pos hc]
          constructor
          · intro _
            right; left
            show decide (c.data.length < GENERATED_ARTICLE_MIN_CONTENT_LENGTH) = true
            simpa using hc
          · intro _
            trivial
        · simp only [generate_article, hg, hme, mkGeneratedArticle, if_neg hc]
          constructor
          · intro hcontra
            exact absurd hcontra (by simp)
          · intro hcontra
            rcases hcontra with h1 | h1 | h1
            · exact absurd h1 (by simp [isError])
            · simp only [contentTooShort, decide_eq_true_eq] at h1
              exact absurd h1 hc
            · have h2 : isError (extract_article_metadata_core c req env.metadataLLM) =
                  true := h1
              rw [hcore] at h2
              exact absurd h2 (by simp [isError])
  · intro hge
    simp only [generate_article, hge]
    constructor <;> trivial
  · intro c e'
    have hok : seoPayloadOk req (Except.error e') = true := by
      unfold seoPayloadOk
      cases hseo : req.generate_seo_metadata with
      | false => rfl
      | true => rfl
    show isError (extract_article_metadata_core c req (Except.error e')) = false
    rw [extract_article_metadata_core_ok c req (Except.error e') hok]
    rfl

set_option maxRecDepth 8000 in
theorem c2_success_false_iff_witness :
    (generate_article sampleRequest c2NullEnv none 3).success = false ∧
    metadataStepFails sampleRequest c2NullEnv.generation c2NullEnv.metadataLLM = true ∧
    isError c2NullEnv.generation = false ∧
    contentTooShort c2NullEnv.generation = false ∧
    (((generate_article sampleRequest c2NullEnv none 3).success = false ↔
        (isError c2NullEnv.generation = true ∨
         contentTooShort c2NullEnv.generation = true ∨
         metadataStepFails sampleRequest c2NullEnv.generation c2NullEnv.metadataLLM =
           true)) ∧
      (c2NullEnv.generation = Except.error "boom" →
        (generate_article sampleRequest c2NullEnv none 3).error =
          some ("Failed to generate article: " ++ "boom") ∧
        (generate_article sampleRequest c2NullEnv none 3).generation_time_seconds = 3) ∧
      (∀ (c e' : String),
        metadataStepFails sampleRequest (Except.ok c) (Except.error e') = false)) :=
  ⟨by decide, by decide, by decide, by decide,
   c2_success_false_iff sampleRequest c2NullEnv none 3 "boom"⟩

theorem verifyAux_attempts_le (outcome : Nat → Except String Unit) :
    ∀ (fuel attempt delay : Nat),
      (verifyAux outcome attempt delay fuel).2.1 ≤ fuel := by
  intro fuel
  induction fuel with
  | zero => intro attempt delay; simp [verifyAux]
  | succ fuel ih =>
    intro attempt delay
    simp only [verifyAux]
    cases outcome attempt with
    | ok _ => simp
    | error e =>
      by_cases h : attempt < QDRANT_MAX_RETRIES
      · simp only [if_pos h]
        have := ih (attempt + 1) (delay * 2)
        show (verifyAux outcome (attempt + 1) (delay * 2) fuel).2.1 + 1 ≤ fuel + 1
        omega
      · simp [if_neg h]

theorem verifyAux_attempts_pos (outcome : Nat → Except String Unit)
    (fuel attempt delay : Nat) (hf : 1 ≤ fuel) :
    1 ≤ (verifyAux outcome attempt delay fuel).2.1 := by
  cases fuel with
  | zero => omega
  | succ fuel =>
    simp only [verifyAux]
    cases outcome attempt with
    | ok _ => simp
    | error e =>
      by_cases h : attempt < QDRANT_MAX_RETRIES
      · simp only [if_pos h]
        omega
      · simp [if_neg h]

theorem verifyAux_delays (outcome : Nat → Except String Unit) :
    ∀ (fuel attempt delay : Nat), QDRANT_MAX_RETRIES < attempt + fuel →
      (verifyAux outcome attempt delay fuel).1 =
        (List.range ((verifyAux outcome attempt delay fuel).2.1 - 1)).map
          (fun i => delay * 2 ^ i) := by
  intro fuel
  induction fuel with
  | zero => intro attempt delay _; simp [verifyAux]
  | succ fuel ih =>
    intro attempt delay hfuel
    simp only [verifyAux]
    cases outcome attempt with
    | ok _ => simp
    | error e =>
      by_cases h : attempt < QDRANT_MAX_RETRIES
      · simp only [if_pos h]
        have hf1 : 1 ≤ fuel := by
          unfold QDRANT_MAX_RETRIES at h hfuel
          omega
        have hk := verifyAux_attempts_pos outcome fuel (attempt + 1) (delay * 2) hf1
        have hih := ih (attempt + 1) (delay * 2) (by omega)
        simp only [hih]
        rw [show (verifyAux outcome (attempt + 1) (delay * 2) fuel).2.1 + 1 - 1 =
          ((verifyAux outcome (attempt + 1) (delay * 2) fuel).2.1 - 1) + 1 by omega]
        rw [List.range_succ_eq_map]
        simp only [List.map_cons, List.map_map, pow_zero, mul_one, List.cons.injEq]
        refine ⟨by trivial, ?_⟩
        apply List.map_congr_left
        intro i _
        simp only [Function.comp]
        rw [pow_succ]
        ring
      · simp [if_neg h]

theorem verifyAux_all_fail (outcome : Nat → Except String Unit) :
    ∀ (fuel attempt delay : Nat), QDRANT_MAX_RETRIES < attempt + fuel →
      attempt ≤ QDRANT_MAX_RETRIES →
      (∀ i, attempt ≤ i → i ≤ QDRANT_MAX_RETRIES → isError (outcome i) = true) →
      (verifyAux outcome attempt delay fuel).2.2 = outcome QDRANT_MAX_RETRIES ∧
      (verifyAux outcome attempt delay fuel).2.1 =
        QDRANT_MAX_RETRIES - attempt + 1 := by
  intro fuel
  induction fuel with
  | zero =>
    intro attempt delay hfuel hle _
    omega
  | succ fuel ih =>
    intro attempt delay hfuel hle hall
    have hia := hall attempt le_rfl hle
    simp only [verifyAux]
    cases hoa : outcome attempt with
    | ok _ =>
      rw [hoa] at hia
      simp [isError] at hia
    | error e =>
      by_cases h : attempt < QDRANT_MAX_RETRIES
      · simp only [if_pos h]
        have hih := ih (attempt + 1) (delay * 2) (by omega) (by omega)
          (fun i hi1 hi2 => hall i (by omega) hi2)
        refine ⟨hih.1, ?_⟩
        rw [hih.2]
        omega
      · have ha : attempt = QDRANT_MAX_RETRIES := by omega
        simp only [if_neg h]
        subst ha
        rw [hoa]
        exact ⟨by trivial, by omega⟩

/-- Claim C8: a verification run making N attempts (N never exceeding
`QDRANT_MAX_RETRIES = 5`) sleeps exactly `d, 2d, 4d, ..., 2^(N-2)*d` between
consecutive attempts for initial delay `d` (no sleep follows the final
attempt: there are N-1 delays), and when every attempt fails, the final
outcome is the last underlying error (the result of attempt 5). -/
theorem c8_backoff (d : Nat) (outcome : Nat → Except String Unit) :
    (verify_connection_with_retry d outcome).2.1 ≤ QDRANT_MAX_RETRIES ∧
    (verify_connection_with_retry d outcome).1 =
      (List.range ((verify_connection_with_retry d outcome).2.1 - 1)).map
        (fun i => d * 2 ^ i) ∧
    (verify_connection_with_retry d outcome).1.length =
      (verify_connection_with_retry d outcome).2.1 - 1 ∧
    ((∀ i, 1 ≤ i → i ≤ QDRANT_MAX_RETRIES → isError (outcome i) = true) →
      (verify_connection_with_retry d outcome).2.2 = outcome QDRANT_MAX_RETRIES ∧
      (verify_connection_with_retry d outcome).2.1 = QDRANT_MAX_RETRIES) := by
  unfold verify_connection_with_retry
  have hd := verifyAux_delays outcome QDRANT_MAX_RETRIES 1 d (by omega)
  refine ⟨verifyAux_attempts_le outcome QDRANT_MAX_RETRIES 1 d, hd, ?_, ?_⟩
  · rw [hd]
    simp
  · intro hall
    have h := verifyAux_all_fail outcome QDRANT_MAX_RETRIES 1 d (by omega)
      (by unfold QDRANT_MAX_RETRIES; omega) hall
    refine ⟨h.1, ?_⟩
    rw [h.2]
    decide

theorem c8_backoff_witness :
    (verify_connection_with_retry 2 allFailOutcome).2.1 ≤ QDRANT_MAX_RETRIES ∧
    (verify_connection_with_retry 2 allFailOutcome).1 =
      (List.range ((verify_connection_with_retry 2 allFailOutcome).2.1 - 1)).map
        (fun i => 2 * 2 ^ i) ∧
    ((verify_connection_with_retry 2 allFailOutcome).2.2 =
        allFailOutcome QDRANT_MAX_RETRIES ∧
      (verify_connection_with_retry 2 allFailOutcome).2.1 = QDRANT_MAX_RETRIES) :=
  ⟨(c8_backoff 2 allFailOutcome).1, (c8_backoff 2 allFailOutcome).2.1,
   (c8_backoff 2 allFailOutcome).2.2.2 (fun _ _ _ => rfl)⟩

example : (verify_connection_with_retry 2 allFailOutcome).1 = [2, 4, 8, 16] := by decide

example : (verify_connection_with_retry 2 (fun i =>
    if i ≤ 2 then Except.error "down" else Except.ok ())).1 = [2, 4] := by decide

end Jenosize

